import Mathlib

/-!
Verification of the SourcePawn front-end specification against the code of
`compiler/code-generator.cpp` and `v2/parser.cpp`.

Part A embeds the expression code generator: the two-register instruction
stream is modelled as a list of emitter-primitive records, and the heap-list
tracker (`pushheaplist` / `pop_static_heaplist` / `popheaplist`) as an explicit
stack of per-frame static totals.  Sub-expressions whose own emission is not
the subject of a claim are modelled as opaque operands carrying their value
descriptor, the instruction list their `DoEmit` would append, and the static
heap usage their emission records on the current heap frame.

Part B embeds the recursive-descent parser: the scanner is a cursor over a
token list (with a history stack so that `undo` and `pushBack` work), and each
parser production is a fueled state function transcribed from the source.
-/

namespace SP

/-- The two registers of the target machine (`sPRI` / `sALT`). -/
inductive Reg where
  | PRI
  | ALT
deriving DecidableEq, Repr

/-- `value.ident` tags (the `iCONSTEXPR` … `iVARARGS` identifier kinds). -/
inductive Ident where
  | CONSTEXPR
  | VARIABLE
  | REFERENCE
  | ARRAY
  | REFARRAY
  | ARRAYCELL
  | ARRAYCHAR
  | ACCESSOR
  | FUNCTN
  | EXPRESSION
  | VARARGS
deriving DecidableEq, Repr

/-- A value descriptor as consumed by the code generator: identifier kind,
constant value, whether `canRematerialize()` holds, the backing symbol name
when symbol-backed, and whether the symbol has `uCONST` usage. -/
structure Val where
  ident : Ident
  constval : Int
  canRema : Bool
  symName : Option String
  symConst : Bool
deriving DecidableEq, Repr

/-- Binary operator opcodes handed to `oper_()`. -/
inductive Op where
  | add
  | sub
  | mul
  | div
  | modOp
  | shl
  | shr
  | band
  | bor
  | bxor
  | eq
  | neq
  | less
  | leq
  | grtr
  | geq
deriving DecidableEq, Repr

/-- One emitter-primitive call, in emission order.  `heapPush`,
`heapPopStatic` and `heapPop` record the heap-list operations
(`pushheaplist`, `pop_static_heaplist`, `popheaplist`). -/
inductive Ins where
  | ldconst (v : Int) (r : Reg)
  | pushreg (r : Reg)
  | popreg (r : Reg)
  | oper (o : Op)
  | userop
  | rvalue (v : Val)
  | store (v : Val)
  | address (sym : String) (r : Reg)
  | memcopy (bytes : Int)
  | jmp_eq0 (l : Nat)
  | jmp_ne0 (l : Nat)
  | jumplabel (l : Nat)
  | setlabel (l : Nat)
  | heapPush
  | heapPopStatic
  | heapPop (scrap : Bool)
  | setheap_save (bytes : Int)
  | setheap_pri
  | markheap (dynamic : Bool) (size : Int)
  | modheap (bytes : Int)
  | ffcall (sym : String) (argc : Nat)
  | markexpr
  | markusage (sym : String)
deriving DecidableEq, Repr

/-- An opaque sub-expression operand: its value descriptor and the code its
`DoEmit` would append. -/
structure Operand where
  val : Val
  code : List Ins
deriving DecidableEq, Repr

/-- `Expr::Emit()`: constant expressions short-circuit to
`ldconst(constval, sPRI)`; everything else runs `DoEmit`. -/
def Expr.emit (e : Operand) : List Ins :=
  if e.val.ident = Ident.CONSTEXPR then [Ins.ldconst e.val.constval Reg.PRI] else e.code

/-- `BinaryExpr::EmitInner`, transcribed from `code-generator.cpp`.  The
`commutative` test lives outside the two files under `src/`, so it is a
parameter.  `oper` is `root->oper()` (`none` for a pure store) and
`useropSym` is whether `root->userop().sym` is set. -/
def BinaryExpr.EmitInner (commutative : Option Op → Bool) (oper : Option Op)
    (useropSym : Bool) (left right : Operand) : List Ins :=
  let operTail : List Ins :=
    match oper with
    | none => []
    | some o => if useropSym then [Ins.userop] else [Ins.oper o]
  if left.val.ident = Ident.CONSTEXPR then
    (if right.val.ident = Ident.CONSTEXPR then
      [Ins.ldconst right.val.constval Reg.PRI]
    else
      Expr.emit right) ++ [Ins.ldconst left.val.constval Reg.ALT] ++ operTail
  else
    let must_save_lhs : Bool := oper.isSome || !left.val.canRema
    (if right.val.ident = Ident.CONSTEXPR then
      if commutative oper then
        [Ins.ldconst right.val.constval Reg.ALT]
      else
        (if must_save_lhs then [Ins.pushreg Reg.PRI] else []) ++
          [Ins.ldconst right.val.constval Reg.PRI] ++
          (if must_save_lhs then [Ins.popreg Reg.ALT] else [])
    else
      (if must_save_lhs then [Ins.pushreg Reg.PRI] else []) ++ Expr.emit right ++
        (if must_save_lhs then [Ins.popreg Reg.ALT] else [])) ++ operTail

/-- The case table of claim C1, written from the specification's words:
both operands constant → load RHS into PRI then LHS into ALT; only the LHS
constant → emit the RHS then load the LHS into ALT; otherwise with
`must_save_lhs = (operator present) ∨ ¬canRematerialize`: a constant RHS
under a commutative operator loads the RHS into ALT directly, under a
non-commutative operator it is bracketed by `pushreg PRI` / `popreg ALT`
only when `must_save_lhs`, and a non-constant RHS is emitted between the
same conditional save/restore pair; finally the operator is applied. -/
def emitInnerSpecTable (commutative : Option Op → Bool) (oper : Option Op)
    (useropSym : Bool) (left right : Operand) : List Ins :=
  let applyOper : List Ins :=
    match oper with
    | none => []
    | some o => if useropSym then [Ins.userop] else [Ins.oper o]
  if left.val.ident = Ident.CONSTEXPR ∧ right.val.ident = Ident.CONSTEXPR then
    [Ins.ldconst right.val.constval Reg.PRI, Ins.ldconst left.val.constval Reg.ALT] ++ applyOper
  else if left.val.ident = Ident.CONSTEXPR then
    Expr.emit right ++ [Ins.ldconst left.val.constval Reg.ALT] ++ applyOper
  else
    let must_save_lhs : Bool := oper.isSome || !left.val.canRema
    (if right.val.ident = Ident.CONSTEXPR then
      if commutative oper then
        [Ins.ldconst right.val.constval Reg.ALT]
      else
        (if must_save_lhs then
          [Ins.pushreg Reg.PRI, Ins.ldconst right.val.constval Reg.PRI, Ins.popreg Reg.ALT]
        else
          [Ins.ldconst right.val.constval Reg.PRI])
    else
      (if must_save_lhs then
        Ins.pushreg Reg.PRI :: (Expr.emit right ++ [Ins.popreg Reg.ALT])
      else
        Expr.emit right)) ++ applyOper

/-- A binary-expression tree as the non-chained part of `BinaryExpr::DoEmit`
consumes it: leaves are opaque operands, inner nodes carry whether the token
is an assignment (`IsAssignOp`), the arithmetic opcode `oper_` if any,
whether `userop_.sym` / `assignop_.sym` are set, the whole-array copy length
if any, and the node's own value descriptor. -/
inductive BExpr where
  | leaf (v : Val) (code : List Ins) (lvalue : Bool)
  | bin (isAssign : Bool) (oper : Option Op) (useropSym : Bool) (assignopSym : Bool)
      (arrayCopyLength : Option Nat) (v : Val) (l r : BExpr)
deriving DecidableEq, Repr

/-- The value descriptor of a binary-expression tree node. -/
def BExpr.val : BExpr → Val
  | .leaf v _ _ => v
  | .bin _ _ _ _ _ v _ _ => v

/-- `BinaryExpr::DoEmit` (non-chained path) over the tree, with `Expr::Emit`
inlined at child positions (the constant-expression short-circuit). -/
def BExpr.doEmit (commutative : Option Op → Bool) : BExpr → List Ins
  | .leaf _ code _ => code
  | .bin isAssign oper useropSym assignopSym arrayCopyLength _ l r =>
    let left_val := l.val
    let emitL : List Ins :=
      if isAssign = true || left_val.ident ≠ Ident.CONSTEXPR then
        Expr.emit ⟨l.val, BExpr.doEmit commutative l⟩
      else []
    let savedAndCode : Bool × List Ins :=
      if isAssign then
        match left_val.ident with
        | Ident.ARRAYCELL | Ident.ARRAYCHAR | Ident.ARRAY | Ident.REFARRAY =>
          if oper.isSome then (true, [Ins.pushreg Reg.PRI, Ins.rvalue left_val]) else (false, [])
        | Ident.ACCESSOR =>
          (true, Ins.pushreg Reg.PRI :: (if oper.isSome then [Ins.rvalue left_val] else []))
        | _ => (false, if oper.isSome then [Ins.rvalue left_val] else [])
      else (false, [])
    match isAssign, arrayCopyLength with
    | true, some n =>
      emitL ++ savedAndCode.2 ++ [Ins.pushreg Reg.PRI] ++
        Expr.emit ⟨r.val, BExpr.doEmit commutative r⟩ ++
        [Ins.popreg Reg.ALT, Ins.memcopy (n * 4)]
    | _, _ =>
      emitL ++ savedAndCode.2 ++
        BinaryExpr.EmitInner commutative oper useropSym
          ⟨l.val, BExpr.doEmit commutative l⟩ ⟨r.val, BExpr.doEmit commutative r⟩ ++
        (if isAssign then
          (if savedAndCode.1 then [Ins.popreg Reg.ALT] else []) ++
            (if assignopSym then [Ins.userop] else []) ++ [Ins.store left_val]
        else [])

/-- Value descriptor of an integer constant expression. -/
def constVal (n : Int) : Val := ⟨Ident.CONSTEXPR, n, true, none, false⟩

/-- Value descriptor of the plain (rematerializable) variable `a`. -/
def varAVal : Val := ⟨Ident.VARIABLE, 0, true, some "a", false⟩

/-- The annotated tree of `1 + 2 * 3` (constant leaves, unfolded products). -/
def treeOnePlusTwoTimesThree : BExpr :=
  BExpr.bin false (some Op.add) false false none ⟨Ident.EXPRESSION, 0, false, none, false⟩
    (BExpr.leaf (constVal 1) [] false)
    (BExpr.bin false (some Op.mul) false false none ⟨Ident.EXPRESSION, 0, false, none, false⟩
      (BExpr.leaf (constVal 2) [] false)
      (BExpr.leaf (constVal 3) [] false))

/-- The annotated tree of the assignment `a = 1 + 2 * 3` (pure store: no
`oper_`, no user ops, no whole-array copy). -/
def treeAssignExample : BExpr :=
  BExpr.bin true none false false none ⟨Ident.EXPRESSION, 0, false, none, false⟩
    (BExpr.leaf varAVal [] true)
    treeOnePlusTwoTimesThree

/-- `LogicalExpr::EmitTest`: the sequence of delegated `EmitTest` calls
issued for the flattened same-kind operand list, transcribed from the loop in
`code-generator.cpp` (all elements but the last, then `sequence.back()`).
Each record is (element, jump_on_true flag, taken argument, fallthrough
argument) of the delegated call. -/
def LogicalExpr.EmitTestCalls {α : Type} (isOr : Bool) (jump_on_true : Bool)
    (taken fall : Nat) (sequence : List α) : List (α × Bool × Nat × Nat) :=
  sequence.dropLast.map (fun e =>
    if isOr then
      (if jump_on_true then (e, true, taken, fall) else (e, true, fall, taken))
    else
      (if jump_on_true then (e, false, fall, taken) else (e, false, taken, fall))) ++
  (match sequence.getLast? with
   | some last => [(last, jump_on_true, taken, fall)]
   | none => [])

/-- The truth table of claim C2, written from the specification's words.
Each record is (element, test sense, jump target): for `||`/jump-on-true all
elements jump-on-true to TAKEN; for `||`/jump-on-false all but the last
jump-on-true to FALLTHROUGH and the last jumps-on-false to TAKEN; for
`&&`/jump-on-true all but the last jump-on-false to FALLTHROUGH and the last
jumps-on-true to TAKEN; for `&&`/jump-on-false all jump-on-false to TAKEN. -/
def logicalTestSpecTable {α : Type} (isOr : Bool) (jump_on_true : Bool)
    (taken fall : Nat) (seq : List α) : List (α × Bool × Nat) :=
  if isOr then
    if jump_on_true then
      seq.map (fun e => (e, true, taken))
    else
      seq.dropLast.map (fun e => (e, true, fall)) ++
        (match seq.getLast? with | some last => [(last, false, taken)] | none => [])
  else
    if jump_on_true then
      seq.dropLast.map (fun e => (e, false, fall)) ++
        (match seq.getLast? with | some last => [(last, true, taken)] | none => [])
    else
      seq.map (fun e => (e, false, taken))

/-- Emitter and heap-tracker state: emitted instruction trace, the heap-list
stack of per-frame static totals (innermost frame first), and the fresh-label
counter of `getlabel`. -/
structure EmitSt where
  code : List Ins
  heap : List Int
  nextLabel : Nat
deriving DecidableEq, Repr

/-- Append one instruction to the trace. -/
def EmitSt.emitI (i : Ins) (st : EmitSt) : EmitSt :=
  { st with code := st.code ++ [i] }

/-- `getlabel()`: allocate a fresh label id. -/
def EmitSt.getlabel (st : EmitSt) : Nat × EmitSt :=
  (st.nextLabel, { st with nextLabel := st.nextLabel + 1 })

/-- `pushheaplist()`: open a heap frame with zero static usage. -/
def EmitSt.pushheaplist (st : EmitSt) : EmitSt :=
  { st with heap := 0 :: st.heap, code := st.code ++ [Ins.heapPush] }

/-- `pop_static_heaplist()`: close the innermost frame, returning its static
total. -/
def EmitSt.pop_static_heaplist (st : EmitSt) : Int × EmitSt :=
  match st.heap with
  | t :: rest => (t, { st with heap := rest, code := st.code ++ [Ins.heapPopStatic] })
  | [] => (0, { st with code := st.code ++ [Ins.heapPopStatic] })

/-- `popheaplist(scrap)`: discard the innermost frame. -/
def EmitSt.popheaplist (scrap : Bool) (st : EmitSt) : EmitSt :=
  { st with heap := st.heap.tail, code := st.code ++ [Ins.heapPop scrap] }

/-- Record static heap usage on the innermost frame. -/
def EmitSt.markStatic (n : Int) (st : EmitSt) : EmitSt :=
  { st with heap := match st.heap with | t :: rest => (t + n) :: rest | [] => [] }

/-- `markheap(kind, size)`: recorded in the trace; a `MEMUSE_STATIC` mark
adds to the innermost frame (modelled from the spec's heap-scoping contract;
`sctracker` is outside the two source files). -/
def EmitSt.markheapOp (dynamic : Bool) (size : Int) (st : EmitSt) : EmitSt :=
  EmitSt.markStatic (if dynamic then 0 else size) (st.emitI (Ins.markheap dynamic size))

/-- `setheap_pri()`: boxes PRI into a one-cell static heap slot (modelled from
the spec's heap-scoping contract). -/
def EmitSt.setheapPri (st : EmitSt) : EmitSt :=
  EmitSt.markStatic 1 (st.emitI Ins.setheap_pri)

/-- An opaque sub-expression as the stateful emitter consumes it: value
descriptor, the instruction list its `DoEmit` appends, and the static heap
usage its emission records on the current frame. -/
structure HExpr where
  val : Val
  code : List Ins
  alloc : Int
deriving DecidableEq, Repr

/-- `Expr::Emit()` for an opaque sub-expression: constants short-circuit to
`ldconst` (and allocate nothing); otherwise the node's code is appended and
its static heap usage recorded. -/
def EmitSt.emitExpr (e : HExpr) (st : EmitSt) : EmitSt :=
  if e.val.ident = Ident.CONSTEXPR then
    st.emitI (Ins.ldconst e.val.constval Reg.PRI)
  else
    EmitSt.markStatic e.alloc { st with code := st.code ++ e.code }

/-- The instruction list `Expr::Emit()` appends for an opaque operand. -/
def HExpr.emitCode (e : HExpr) : List Ins :=
  if e.val.ident = Ident.CONSTEXPR then [Ins.ldconst e.val.constval Reg.PRI] else e.code

/-- The static heap usage `Expr::Emit()` records for an opaque operand. -/
def HExpr.allocOf (e : HExpr) : Int :=
  if e.val.ident = Ident.CONSTEXPR then 0 else e.alloc

/-- `TernaryExpr::DoEmit`, transcribed from `code-generator.cpp`. -/
def TernaryExpr.DoEmit (first second third : HExpr) (vident : Ident)
    (st0 : EmitSt) : EmitSt :=
  let st1 := EmitSt.emitExpr first st0
  let p1 := st1.getlabel
  let flab1 := p1.1
  let p2 := p1.2.getlabel
  let flab2 := p2.1
  let st2 := p2.2.pushheaplist
  let st3 := st2.emitI (Ins.jmp_eq0 flab1)
  let st4 := EmitSt.emitExpr second st3
  let q1 := st4.pop_static_heaplist
  let total1 := q1.1
  let st5 := if total1 ≠ 0 then q1.2.emitI (Ins.setheap_save (total1 * 4)) else q1.2
  let st6 := st5.pushheaplist
  let st7 := st6.emitI (Ins.jumplabel flab2)
  let st8 := st7.emitI (Ins.setlabel flab1)
  let st9 := EmitSt.emitExpr third st8
  let q2 := st9.pop_static_heaplist
  let total2 := q2.1
  let st10 := if total2 ≠ 0 then q2.2.emitI (Ins.setheap_save (total2 * 4)) else q2.2
  let st11 := st10.emitI (Ins.setlabel flab2)
  if vident = Ident.REFARRAY ∧ total1 ≠ 0 ∧ total2 ≠ 0 then
    st11.emitI (Ins.markheap true 0)
  else
    st11

/-- One argument slot of a call (`argv_[i]`): the expression as an opaque
operand, whether it is a `DefaultArgExpr`, its lvalue flag, and the formal
parameter's identifier kind and `uCONST` usage. -/
structure ArgvEntry where
  isDefaultArg : Bool
  val : Val
  lvalue : Bool
  code : List Ins
  alloc : Int
  argIdent : Ident
  argConst : Bool
deriving DecidableEq, Repr

/-- One iteration of the argument loop of `CallExpr::DoEmit`. -/
def CallExpr.emitArg (a : ArgvEntry) (st : EmitSt) : EmitSt :=
  let st1 := EmitSt.emitExpr ⟨a.val, a.code, a.alloc⟩ st
  if a.isDefaultArg then
    st1.emitI (Ins.pushreg Reg.PRI)
  else
    let st2 :=
      match a.argIdent with
      | Ident.VARARGS =>
        let stv :=
          if a.val.ident = Ident.VARIABLE ∨ a.val.ident = Ident.REFERENCE then
            if a.val.symConst ∧ ¬a.argConst then
              EmitSt.setheapPri (st1.emitI (Ins.rvalue a.val))
            else if a.lvalue then
              st1.emitI (Ins.address (a.val.symName.getD "") Reg.PRI)
            else
              EmitSt.setheapPri st1
          else if a.val.ident = Ident.CONSTEXPR ∨ a.val.ident = Ident.EXPRESSION then
            EmitSt.setheapPri st1
          else
            st1
        match a.val.symName with
        | some s => stv.emitI (Ins.markusage s)
        | none => stv
      | Ident.VARIABLE => st1
      | Ident.REFARRAY => st1
      | Ident.REFERENCE =>
        let stv :=
          if a.val.ident = Ident.VARIABLE ∨ a.val.ident = Ident.REFERENCE then
            st1.emitI (Ins.address (a.val.symName.getD "") Reg.PRI)
          else
            st1
        match a.val.symName with
        | some s => stv.emitI (Ins.markusage s)
        | none => stv
      | _ => st1
    (st2.emitI (Ins.pushreg Reg.PRI)).emitI Ins.markexpr

/-- `CallExpr::DoEmit`, transcribed from `code-generator.cpp`.
`retArraySize` is `array_totalsize(val_.sym)` when the call returns an array
(`val_.sym` set), else `none`; the argument loop runs right-to-left. -/
def CallExpr.DoEmit (retArraySize : Option Int) (argv : List ArgvEntry)
    (sym : String) (st0 : EmitSt) : EmitSt :=
  let st1 :=
    match retArraySize with
    | some retsize =>
      EmitSt.markheapOp false retsize
        ((st0.emitI (Ins.modheap (retsize * 4))).emitI (Ins.pushreg Reg.ALT))
    | none => st0
  let st2 := st1.pushheaplist
  let st3 := argv.reverse.foldl (fun s a => CallExpr.emitArg a s) st2
  let st4 := st3.emitI (Ins.ffcall sym argv.length)
  let st5 :=
    match retArraySize with
    | some _ => st4.emitI (Ins.popreg Reg.PRI)
    | none => st4
  st5.popheaplist true

/-- Whether a trace record is a `pushheaplist`. -/
def isHeapPushI : Ins → Bool
  | Ins.heapPush => true
  | _ => false

/-- Whether a trace record is a `pop_static_heaplist` or `popheaplist`. -/
def isHeapPopI : Ins → Bool
  | Ins.heapPopStatic => true
  | Ins.heapPop _ => true
  | _ => false

/-- Counts `pushheaplist` records in a trace. -/
def heapPushCount (l : List Ins) : Nat := l.countP isHeapPushI

/-- Counts `pop_static_heaplist` / `popheaplist` records in a trace. -/
def heapPopCount (l : List Ins) : Nat := l.countP isHeapPopI

/-- An opaque operand of undetermined (`iEXPRESSION`) value for witnesses. -/
def exprAtom : HExpr := ⟨⟨Ident.EXPRESSION, 0, false, none, false⟩, [], 0⟩

/-- An empty emitter state for witnesses. -/
def emptyEmitSt : EmitSt := ⟨[], [], 0⟩

/-! ## Part B: the parser -/

/-- Token kinds of the v2 scanner, as the parser consumes them. -/
inductive TokKind where
  | TOK_NAME | TOK_INTEGER_LITERAL | TOK_HEX_LITERAL | TOK_FLOAT_LITERAL
  | TOK_STRING_LITERAL | TOK_CHAR_LITERAL | TOK_TRUE | TOK_FALSE | TOK_THIS
  | TOK_LBRACE | TOK_RBRACE | TOK_LPAREN | TOK_RPAREN | TOK_LBRACKET | TOK_RBRACKET
  | TOK_SEMICOLON | TOK_COLON | TOK_COMMA | TOK_ASSIGN | TOK_QMARK
  | TOK_LT | TOK_LE | TOK_GT | TOK_GE | TOK_EQUALS | TOK_NOTEQUALS
  | TOK_AND | TOK_OR | TOK_BITAND | TOK_BITOR | TOK_BITXOR
  | TOK_SHL | TOK_SHR | TOK_USHR | TOK_PLUS | TOK_MINUS | TOK_STAR | TOK_SLASH
  | TOK_PERCENT | TOK_NOT | TOK_TILDE | TOK_NEGATE | TOK_INCREMENT | TOK_DECREMENT
  | TOK_SIZEOF | TOK_LABEL | TOK_CASE | TOK_DEFAULT | TOK_SWITCH | TOK_IF | TOK_ELSE
  | TOK_FOR | TOK_WHILE | TOK_DO | TOK_BREAK | TOK_CONTINUE | TOK_RETURN | TOK_ENUM
  | TOK_CONST | TOK_ELLIPSES | TOK_AMPERSAND | TOK_NEW | TOK_DECL | TOK_STATIC
  | TOK_PUBLIC | TOK_STOCK | TOK_NATIVE | TOK_FORWARD | TOK_METHODMAP | TOK_STRUCT
  | TOK_UNION | TOK_TYPEDEF | TOK_FUNCTAG | TOK_FUNCTION | TOK_NULLABLE | TOK_PROPERTY
  | TOK_INT | TOK_CHAR | TOK_VOID | TOK_OBJECT | TOK_FLOAT | TOK_BOOL
  | TOK_IMPLICIT_INT | TOK_EOL | TOK_EOF | TOK_ERROR | TOK_NONE
  | TOK_ASSIGN_ADD | TOK_ASSIGN_SUB | TOK_ASSIGN_MUL | TOK_ASSIGN_DIV
  | TOK_ASSIGN_MOD | TOK_ASSIGN_BITAND | TOK_ASSIGN_BITOR | TOK_ASSIGN_BITXOR
  | TOK_ASSIGN_SHR | TOK_ASSIGN_USHR | TOK_ASSIGN_SHL
deriving DecidableEq, Repr

/-- `IsNewTypeToken`.  Modelled from the spec: the built-in type keywords
(`int`, `char`, `void`, `object`, `float`, `bool`); the token-kind header is
not among the two source files. -/
def IsNewTypeToken : TokKind → Bool
  | TokKind.TOK_INT | TokKind.TOK_CHAR | TokKind.TOK_VOID
  | TokKind.TOK_OBJECT | TokKind.TOK_FLOAT | TokKind.TOK_BOOL => true
  | _ => false

/-- The range check `TOK_LT <= kind <= TOK_GE` of `Parser::relational`.
Modelled from the spec's relational operator set (`<`, `<=`, `>`, `>=`). -/
def isRelationalKind : TokKind → Bool
  | TokKind.TOK_LT | TokKind.TOK_LE | TokKind.TOK_GT | TokKind.TOK_GE => true
  | _ => false

/-- The range check `TOK_ASSIGN_ADD <= token <= TOK_ASSIGN_SHL` of
`Parser::assignment`.  Modelled from the spec's compound-assign set. -/
def isCompoundAssignKind : TokKind → Bool
  | TokKind.TOK_ASSIGN_ADD | TokKind.TOK_ASSIGN_SUB | TokKind.TOK_ASSIGN_MUL
  | TokKind.TOK_ASSIGN_DIV | TokKind.TOK_ASSIGN_MOD | TokKind.TOK_ASSIGN_BITAND
  | TokKind.TOK_ASSIGN_BITOR | TokKind.TOK_ASSIGN_BITXOR | TokKind.TOK_ASSIGN_SHR
  | TokKind.TOK_ASSIGN_USHR | TokKind.TOK_ASSIGN_SHL => true
  | _ => false

/-- `scanner_.literal()` for a type keyword consumed as a name. -/
def typeTokenText : TokKind → String
  | TokKind.TOK_INT => "int"
  | TokKind.TOK_CHAR => "char"
  | TokKind.TOK_VOID => "void"
  | TokKind.TOK_OBJECT => "object"
  | TokKind.TOK_FLOAT => "float"
  | TokKind.TOK_BOOL => "bool"
  | _ => ""

/-- A scanned token: kind, physical line, source position (diagnostic id),
interned-name payload and integer payload. -/
structure Tok where
  kind : TokKind
  line : Nat
  pos : Nat
  name : String
  ival : Int
deriving DecidableEq, Repr

/-- The token the scanner reports at (and beyond) end of input. -/
def eofTok : Tok := ⟨TokKind.TOK_EOF, 0, 0, "", 0⟩

/-- Scanner state: consumed tokens (most recent first), pending tokens, the
tag-recognition flag of `AutoAllowTags`, and the `requireSemicolons` dialect
flag. -/
structure Scanner where
  past : List Tok
  future : List Tok
  allowTags : Bool
  reqSemis : Bool
deriving DecidableEq, Repr

/-- The token described by `current()` / `begin()` / `current_name()`. -/
def Scanner.currentTok (s : Scanner) : Tok := s.past.headD eofTok

/-- `peek()`: the next token kind, without consuming. -/
def Scanner.peekKind (s : Scanner) : TokKind := (s.future.headD eofTok).kind

/-- `next()`: consume and return the next token kind. -/
def Scanner.nextS (s : Scanner) : TokKind × Scanner :=
  match s.future with
  | t :: rest => (t.kind, { s with past := t :: s.past, future := rest })
  | [] => (TokKind.TOK_EOF, { s with past := eofTok :: s.past })

/-- `undo()`: rewind exactly one token. -/
def Scanner.undoS (s : Scanner) : Scanner :=
  match s.past with
  | t :: rest => { s with past := rest, future := t :: s.future }
  | [] => s

/-- `pushBack(tok)`: push a saved token to be returned next. -/
def Scanner.pushBackS (t : Tok) (s : Scanner) : Scanner :=
  { s with future := t :: s.future }

/-- `peekTokenSameLine()`: the next kind if it is on the current token's
line, else a synthetic `TOK_EOL`. -/
def Scanner.peekSameLine (s : Scanner) : TokKind :=
  match s.future with
  | t :: _ => if t.line = s.currentTok.line then t.kind else TokKind.TOK_EOL
  | [] => TokKind.TOK_EOL

/-- `eatRestOfLine()`.  Modelled from the spec: skip tokens to the end of the
current physical line. -/
def Scanner.eatLine : List Tok → Nat → List Tok
  | [], _ => []
  | t :: rest, line => if t.line = line then Scanner.eatLine rest line else t :: rest

/-- Diagnostic message codes reported through `cc_.reportError`. -/
inductive Msg where
  | WrongToken (expected got : TokKind)
  | ConstSpecifiedTwice
  | NoChainedRelationalOps
  | OneDefaultPerSwitch
  | DefaultMustBeLastCase
  | SingleStatementPerCase
  | NewStyleBadKeyword
  | NewDeclsRequired
  | TypeIsDeprecated (used instead : String)
  | TypeCannotBeReference (what : String)
  | FixedArrayInPrefix
  | DoubleArrayDims
  | ExpectedTypeExpr
  | ExpectedExpression (got : TokKind)
  | ExpectedGlobal
  | ExpectedLayoutMember
  | InvalidAccessorName
  | AccessorRedeclared (name : String)
  | VariableMustBeInBlock
  | MultipleVarargs
  | FunctagsNotSupported
  | ExpectedNewlineOrSemi
  | ExpectedNewline
deriving DecidableEq, Repr

/-- A recorded diagnostic: source position and message. -/
structure Diag where
  pos : Nat
  msg : Msg
deriving DecidableEq, Repr

/-- Parser state: the scanner, recorded diagnostics, and the
`allowDeclarations_` / `encounteredReturn_` flags. -/
structure PState where
  scan : Scanner
  diags : List Diag
  allowDeclarations : Bool
  encounteredReturn : Bool
deriving DecidableEq, Repr

/-- The parser monad: state over `PState`. -/
abbrev P (α : Type) := StateM PState α

/-- `Parser::peek(kind)`. -/
def speek (k : TokKind) : P Bool := do
  pure ((← get).scan.peekKind = k)

/-- The next token kind, without consuming. -/
def speekKind : P TokKind := do
  pure (← get).scan.peekKind

/-- `scanner_.next()`. -/
def snext : P TokKind := do
  let s ← get
  let r := s.scan.nextS
  set { s with scan := r.2 }
  pure r.1

/-- `scanner_.undo()`. -/
def sundo : P Unit :=
  modify fun s => { s with scan := s.scan.undoS }

/-- `scanner_.pushBack(tok)`. -/
def spushBack (t : Tok) : P Unit :=
  modify fun s => { s with scan := s.scan.pushBackS t }

/-- `scanner_.current()`. -/
def scurrent : P Tok := do
  pure (← get).scan.currentTok

/-- `scanner_.begin()`: the current token's position. -/
def sbegin : P Nat := do
  pure (← get).scan.currentTok.pos

/-- `scanner_.current_name()`. -/
def currentName : P String := do
  pure (← get).scan.currentTok.name

/-- `cc_.reportError(loc, code, ...)`. -/
def reportErr (pos : Nat) (m : Msg) : P Unit :=
  modify fun s => { s with diags := s.diags ++ [⟨pos, m⟩] }

/-- `Parser::match(kind)`. -/
def pmatch (k : TokKind) : P Bool := do
  if (← snext) = k then
    pure true
  else do
    sundo
    pure false

/-- `Parser::expect(kind)`. -/
def pexpect (k : TokKind) : P Bool := do
  let got ← snext
  if got = k then
    pure true
  else do
    reportErr (← sbegin) (Msg.WrongToken k got)
    pure false

/-- `Parser::maybeName()`. -/
def maybeNameP : P (Option String) := do
  if ← pmatch TokKind.TOK_NAME then
    pure (some (← currentName))
  else
    pure none

/-- `Parser::expectName()`. -/
def expectNameP : P (Option String) := do
  if ← pexpect TokKind.TOK_NAME then
    pure (some (← currentName))
  else
    pure none

/-- `scanner_.peekTokenSameLine()`. -/
def speekSameLine : P TokKind := do
  pure (← get).scan.peekSameLine

/-- `Parser::requireTerminator()`: `;` or newline. -/
def requireTerminator : P Bool := do
  if (← get).scan.reqSemis then
    pexpect TokKind.TOK_SEMICOLON
  else if ← pmatch TokKind.TOK_SEMICOLON then
    pure true
  else if (← speekSameLine) = TokKind.TOK_EOL then
    pure true
  else do
    reportErr (← sbegin) Msg.ExpectedNewlineOrSemi
    pure false

/-- `Parser::requireNewline()`. -/
def requireNewline : P Bool := do
  if (← speekSameLine) = TokKind.TOK_EOL then
    pure true
  else do
    reportErr (← sbegin) Msg.ExpectedNewline
    pure false

/-- `Parser::requireNewlineOrSemi()`. -/
def requireNewlineOrSemi : P Bool := do
  if (← speekSameLine) = TokKind.TOK_SEMICOLON then
    let _ ← snext
  if (← speekSameLine) = TokKind.TOK_EOL then
    pure true
  else do
    reportErr (← sbegin) Msg.ExpectedNewline
    pure false

/-- `AutoAllowTags<false>`: run an action with tag recognition disabled,
restoring the previous flag afterwards (the C++ object's scope runs to the
end of the enclosing production). -/
def withTagsOff {α : Type} (act : P α) : P α := do
  let old := (← get).scan.allowTags
  modify fun s => { s with scan := { s.scan with allowTags := false } }
  let r ← act
  modify fun s => { s with scan := { s.scan with allowTags := old } }
  pure r

/-- `scanner_.eatRestOfLine()` as a parser action. -/
def eatRestOfLineP : P Unit :=
  modify fun s =>
    { s with scan :=
        { s.scan with future := Scanner.eatLine s.scan.future s.scan.currentTok.line } }

/-- Expression AST nodes produced by the parser. -/
inductive Expression where
  | NameProxy (pos : Nat) (name : String)
  | IntegerLiteral (pos : Nat) (v : Int)
  | FloatLiteral (pos : Nat) (v : Int)
  | CharLiteral (pos : Nat) (v : Int)
  | BooleanLiteral (pos : Nat) (tok : TokKind)
  | StringLiteral (pos : Nat) (s : String)
  | ThisExpression (pos : Nat)
  | ArrayLiteral (pos : Nat) (tok : TokKind) (elems : List Expression)
  | StructInitializer (pos : Nat) (pairs : List (String × Expression))
  | CallExpression (pos : Nat) (callee : Expression) (args : List Expression)
  | IndexExpression (pos : Nat) (base idx : Expression)
  | UnaryExpression (pos : Nat) (tok : TokKind) (e : Expression) (tag : Option String)
  | IncDecExpression (pos : Nat) (tok : TokKind) (e : Expression) (isPost : Bool)
  | BinaryExpression (pos : Nat) (tok : TokKind) (l r : Expression)
  | TernaryExpression (pos : Nat) (c t f : Expression)
  | Assignment (pos : Nat) (tok : TokKind) (l r : Expression)
deriving Repr

/-- A `TypeSpecifier` under construction.  The function-type signature
payload is not retained (no claim concerns function types); the resolver
records `TOK_FUNCTION` for them. -/
structure TypeSpec where
  isConst : Bool
  constLoc : Nat
  byRef : Bool
  byRefLoc : Nat
  variadic : Bool
  variadicLoc : Nat
  resolver : TokKind
  proxyName : String
  rank : Nat
  dims : Option (List (Option Expression))
  hasPostDims : Bool
deriving Repr

/-- A blank `TypeSpecifier`. -/
def TypeSpec.empty : TypeSpec :=
  ⟨false, 0, false, 0, false, 0, TokKind.TOK_NONE, "", 0, none, false⟩

/-- `setConst(loc)`. -/
def TypeSpec.setConst (loc : Nat) (s : TypeSpec) : TypeSpec :=
  { s with isConst := true, constLoc := loc }

/-- `setByRef(loc)`. -/
def TypeSpec.setByRef (loc : Nat) (s : TypeSpec) : TypeSpec :=
  { s with byRef := true, byRefLoc := loc }

/-- `setVariadic(loc)`. -/
def TypeSpec.setVariadic (loc : Nat) (s : TypeSpec) : TypeSpec :=
  { s with variadic := true, variadicLoc := loc }

/-- `setBuiltinType(kind)`. -/
def TypeSpec.setBuiltinType (k : TokKind) (s : TypeSpec) : TypeSpec :=
  { s with resolver := k }

/-- `setNamedType(kind, proxy)` (kind is `TOK_NAME` or `TOK_LABEL`). -/
def TypeSpec.setNamedType (k : TokKind) (name : String) (s : TypeSpec) : TypeSpec :=
  { s with resolver := k, proxyName := name }

/-- `setFunctionType(signature)` (signature payload dropped). -/
def TypeSpec.setFunctionType (s : TypeSpec) : TypeSpec :=
  { s with resolver := TokKind.TOK_FUNCTION }

/-- `isArray()`.  Modelled from the spec invariant: an array shape is a
positive rank (`rank = dims.len()` when `dims` is present). -/
def TypeSpec.isArray (s : TypeSpec) : Bool := s.rank != 0

/-- `setRank(loc, rank)`. -/
def TypeSpec.setRank (_loc : Nat) (r : Nat) (s : TypeSpec) : TypeSpec :=
  { s with rank := r, dims := none }

/-- `setDimensionSizes(loc, dims)`.  Modelled from the spec invariant
`rank = dims.len()`. -/
def TypeSpec.setDimensionSizes (_loc : Nat) (d : List (Option Expression))
    (s : TypeSpec) : TypeSpec :=
  { s with rank := d.length, dims := some d }

/-- `setHasPostDims()`. -/
def TypeSpec.setHasPostDims (s : TypeSpec) : TypeSpec :=
  { s with hasPostDims := true }

/-- `unsetHasPostDims()`. -/
def TypeSpec.unsetHasPostDims (s : TypeSpec) : TypeSpec :=
  { s with hasPostDims := false }

/-- `isNewDecl()`.  Modelled from the spec: old-style declarations resolve to
implicit-int or a labeled type; everything else is new-style. -/
def TypeSpec.isNewDecl (s : TypeSpec) : Bool :=
  !(s.resolver = TokKind.TOK_IMPLICIT_INT || s.resolver = TokKind.TOK_LABEL)

/-- `resetWithAttrs(Const)`.  Modelled from the spec: keep only the const
attribute for the next comma-separated declarator. -/
def TypeSpec.resetWithAttrsConst (s : TypeSpec) : TypeSpec :=
  { TypeSpec.empty with isConst := s.isConst, constLoc := s.constLoc }

/-- `resetArray()`.  Modelled from the spec: clear the array shape recorded
for the previous declarator. -/
def TypeSpec.resetArray (s : TypeSpec) : TypeSpec :=
  { s with rank := 0, dims := none, hasPostDims := false }

/-- The parser's working `Declaration`: a specifier and a name token. -/
structure Declaration where
  spec : TypeSpec
  name : Tok
deriving Repr

/-- A blank declaration. -/
def Declaration.empty : Declaration := ⟨TypeSpec.empty, eofTok⟩

/-- `DeclFlags` as individual flags.  `NamedMask` is modelled from the spec
as the flags that carry a declarator name. -/
structure DFlags where
  argument : Bool
  old : Bool
  maybeNamed : Bool
  maybeFunction : Bool
  variable_ : Bool
  field : Bool
  inline : Bool
deriving DecidableEq, Repr

/-- The all-clear flag set. -/
def DFlags.none0 : DFlags := ⟨false, false, false, false, false, false, false⟩

/-- `DeclFlags::NamedMask`. -/
def DFlags.namedMask (f : DFlags) : Bool :=
  f.maybeNamed || f.maybeFunction || f.variable_ || f.field

/-- A single parsed variable declarator. -/
structure VarDecl where
  name : Tok
  spec : TypeSpec
  init : Option Expression
deriving Repr

/-- Statement AST nodes produced by the parser. -/
inductive Stmt where
  | ExpressionStatement (e : Expression)
  | BlockStatement (pos : Nat) (stmts : List Stmt)
  | BreakStatement (pos : Nat)
  | ContinueStatement (pos : Nat)
  | WhileStatement (pos : Nat) (tok : TokKind) (cond : Expression) (body : Stmt)
  | ForStatement (pos : Nat) (ini : Option Stmt) (cond : Option Expression)
      (upd : Option Stmt) (body : Stmt)
  | ReturnStatement (pos : Nat) (e : Option Expression)
  | IfStatement (pos : Nat) (cond : Expression) (ifTrue : Stmt) (ifFalse : Option Stmt)
  | SwitchStatement (pos : Nat) (e : Expression)
      (cases : List (Expression × Option (List Expression) × Stmt))
      (defaultCase : Option Stmt)
  | EnumStatement (pos : Nat) (name : Option String)
      (entries : List (String × Option Expression))
  | VarDeclStmt (first : VarDecl) (rest : List VarDecl)
deriving Repr

/-- The parse tree: the list of global statements. -/
abbrev ParseTree := List Stmt

/-- The productions of this recursion group, at one fuel level. -/
structure ExprFns where
  primitive : P (Option Expression)
  structInitLoop : Nat → List (String × Expression) → P (Option Expression)
  parseStructInitializer : Nat → P (Option Expression)
  compoundLoop : P Bool
  parseCompoundLiteral : P (Option Expression)
  prefixE : P (Option Expression)
  callArgsLoop : Nat → Expression → List Expression → P (Option Expression)
  call : Expression → P (Option Expression)
  index : Expression → P (Option Expression)
  primaryLoop : Expression → P (Option Expression)
  primary : P (Option Expression)
  unary : P (Option Expression)
  mulLoop : Expression → P (Option Expression)
  multiplication : P (Option Expression)
  addLoop : Expression → P (Option Expression)
  addition : P (Option Expression)
  shiftLoop : Expression → P (Option Expression)
  shift : P (Option Expression)
  bitandLoop : Expression → P (Option Expression)
  bitand_ : P (Option Expression)
  bitxorLoop : Expression → P (Option Expression)
  bitxor : P (Option Expression)
  bitorLoop : Expression → P (Option Expression)
  bitor_ : P (Option Expression)
  relLoop : Expression → Nat → P (Option Expression)
  relational : P (Option Expression)
  eqLoop : Expression → P (Option Expression)
  equals : P (Option Expression)
  andLoop : Expression → P (Option Expression)
  and_ : P (Option Expression)
  orLoop : Expression → P (Option Expression)
  or_ : P (Option Expression)
  ternary : P (Option Expression)
  asgLoop : Expression → P (Option Expression)
  assignment : P (Option Expression)
  expression : P (Option Expression)

/-- The out-of-fuel bottom of the group. -/
def exprFnsBot : ExprFns where
  primitive := pure none
  structInitLoop := fun _ _ => pure none
  parseStructInitializer := fun _ => pure none
  compoundLoop := pure false
  parseCompoundLiteral := pure none
  prefixE := pure none
  callArgsLoop := fun _ _ _ => pure none
  call := fun _ => pure none
  index := fun _ => pure none
  primaryLoop := fun _ => pure none
  primary := pure none
  unary := pure none
  mulLoop := fun _ => pure none
  multiplication := pure none
  addLoop := fun _ => pure none
  addition := pure none
  shiftLoop := fun _ => pure none
  shift := pure none
  bitandLoop := fun _ => pure none
  bitand_ := pure none
  bitxorLoop := fun _ => pure none
  bitxor := pure none
  bitorLoop := fun _ => pure none
  bitor_ := pure none
  relLoop := fun _ _ => pure none
  relational := pure none
  eqLoop := fun _ => pure none
  equals := pure none
  andLoop := fun _ => pure none
  and_ := pure none
  orLoop := fun _ => pure none
  or_ := pure none
  ternary := pure none
  asgLoop := fun _ => pure none
  assignment := pure none
  expression := pure none

/-- One fuel step of the group: each production, with its recursive
calls taken from the previous level `r`. -/
def exprStep (rec : ExprFns) : ExprFns where
  primitive := do
    match ← snext with
    | TokKind.TOK_FLOAT_LITERAL => do
      let t ← scurrent
      pure (some (Expression.FloatLiteral t.pos t.ival))
    | TokKind.TOK_HEX_LITERAL => do
      let t ← scurrent
      pure (some (Expression.IntegerLiteral t.pos t.ival))
    | TokKind.TOK_INTEGER_LITERAL => do
      let t ← scurrent
      pure (some (Expression.IntegerLiteral t.pos t.ival))
    | TokKind.TOK_TRUE => do
      pure (some (Expression.BooleanLiteral (← sbegin) (← scurrent).kind))
    | TokKind.TOK_FALSE => do
      pure (some (Expression.BooleanLiteral (← sbegin) (← scurrent).kind))
    | TokKind.TOK_STRING_LITERAL => do
      let lit ← currentName
      pure (some (Expression.StringLiteral (← sbegin) lit))
    | TokKind.TOK_CHAR_LITERAL => do
      let t ← scurrent
      pure (some (Expression.CharLiteral t.pos t.ival))
    | TokKind.TOK_THIS => do
      pure (some (Expression.ThisExpression (← sbegin)))
    | TokKind.TOK_LBRACE => rec.parseCompoundLiteral
    | k => do
      if k ≠ TokKind.TOK_ERROR then
        reportErr (← sbegin) (Msg.ExpectedExpression k)
      pure none
  structInitLoop := fun pos acc => do
    if ← pmatch TokKind.TOK_RBRACE then
      pure (some (Expression.StructInitializer pos acc))
    else if !(← pexpect TokKind.TOK_NAME) then
      pure none
    else do
      let nm ← currentName
      if !(← pmatch TokKind.TOK_ASSIGN) then
        pure none
      else do
        match ← rec.expression with
        | none => pure none
        | some e => do
          let _ ← pmatch TokKind.TOK_COMMA
          rec.structInitLoop pos (acc ++ [(nm, e)])
  parseStructInitializer := fun pos => rec.structInitLoop pos []
  compoundLoop := do
    if ← speek TokKind.TOK_RBRACE then
      pure true
    else do
      match ← rec.expression with
      | none => pure false
      | some _ => do
        if ← pmatch TokKind.TOK_COMMA then
          rec.compoundLoop
        else
          pure true
  parseCompoundLiteral := do
    let pos ← sbegin
    let matched ← pmatch TokKind.TOK_NAME
    let assigns ←
      if matched then do
        let a ← speek TokKind.TOK_ASSIGN
        sundo
        pure a
      else
        pure false
    if assigns then
      rec.parseStructInitializer pos
    else do
      let list : List Expression := []
      let ok ← rec.compoundLoop
      if ok then do
        let _ ← pexpect TokKind.TOK_RBRACE
        pure (some (Expression.ArrayLiteral pos TokKind.TOK_LBRACE list))
      else
        pure none
  prefixE := do
    match ← snext with
    | TokKind.TOK_LPAREN => do
      match ← rec.expression with
      | none => pure none
      | some e => do
        if ← pexpect TokKind.TOK_RPAREN then pure (some e) else pure none
    | TokKind.TOK_NAME => do
      pure (some (Expression.NameProxy (← sbegin) (← currentName)))
    | k => do
      if IsNewTypeToken k then
        pure (some (Expression.NameProxy (← sbegin) (typeTokenText k)))
      else do
        sundo
        rec.primitive
  callArgsLoop := fun pos callee acc => do
    match ← rec.expression with
    | none => pure none
    | some e => do
      if ← pmatch TokKind.TOK_COMMA then
        rec.callArgsLoop pos callee (acc ++ [e])
      else if ← pexpect TokKind.TOK_RPAREN then
        pure (some (Expression.CallExpression pos callee (acc ++ [e])))
      else
        pure none
  call := fun callee => do
    let pos ← sbegin
    let _ ← pexpect TokKind.TOK_LPAREN
    if ← pmatch TokKind.TOK_RPAREN then
      pure (some (Expression.CallExpression pos callee []))
    else
      rec.callArgsLoop pos callee []
  index := fun left => do
    let _ ← pexpect TokKind.TOK_LBRACKET
    let pos ← sbegin
    match ← rec.expression with
    | none => pure none
    | some e => do
      if ← pexpect TokKind.TOK_RBRACKET then
        pure (some (Expression.IndexExpression pos left e))
      else
        pure none
  primaryLoop := fun e => do
    match ← speekKind with
    | TokKind.TOK_LPAREN => do
      match ← rec.call e with
      | none => pure none
      | some e2 => rec.primaryLoop e2
    | TokKind.TOK_LBRACKET => do
      match ← rec.index e with
      | none => pure none
      | some e2 => rec.primaryLoop e2
    | _ => pure (some e)
  primary := do
    match ← rec.prefixE with
    | none => pure none
    | some e => rec.primaryLoop e
  unary := do
    let token ← speekKind
    let pos ← sbegin
    match token with
    | TokKind.TOK_INCREMENT | TokKind.TOK_DECREMENT => do
      let _ ← snext
      match ← rec.unary with
      | none => pure none
      | some e => pure (some (Expression.IncDecExpression pos token e false))
    | TokKind.TOK_MINUS | TokKind.TOK_NOT | TokKind.TOK_TILDE => do
      let _ ← snext
      match ← rec.unary with
      | none => pure none
      | some e =>
        let token2 := if token = TokKind.TOK_MINUS then TokKind.TOK_NEGATE else token
        pure (some (Expression.UnaryExpression pos token2 e none))
    | TokKind.TOK_SIZEOF => do
      let _ ← snext
      if !(← pexpect TokKind.TOK_LPAREN) then
        pure none
      else do
        match ← rec.unary with
        | none => pure none
        | some e => do
          if !(← pexpect TokKind.TOK_RPAREN) then
            pure none
          else
            pure (some (Expression.UnaryExpression pos token e none))
    | TokKind.TOK_LABEL => do
      let _ ← snext
      let tag ← currentName
      match ← rec.unary with
      | none => pure none
      | some e => pure (some (Expression.UnaryExpression pos TokKind.TOK_LABEL e (some tag)))
    | _ => do
      match ← rec.primary with
      | none => pure none
      | some e => do
        let t2 ← speekKind
        if t2 = TokKind.TOK_INCREMENT ∨ t2 = TokKind.TOK_DECREMENT then do
          let _ ← snext
          pure (some (Expression.IncDecExpression pos t2 e true))
        else
          pure (some e)
  mulLoop := fun left => do
    let m1 ← pmatch TokKind.TOK_SLASH
    let matched ←
      if m1 then pure true
      else do
        let m2 ← pmatch TokKind.TOK_STAR
        if m2 then pure true else pmatch TokKind.TOK_PERCENT
    if !matched then
      pure (some left)
    else do
      let pos ← sbegin
      let kind := (← scurrent).kind
      match ← rec.unary with
      | none => pure none
      | some r => rec.mulLoop (Expression.BinaryExpression pos kind left r)
  multiplication := do
    match ← rec.unary with
    | none => pure none
    | some l => rec.mulLoop l
  addLoop := fun left => do
    let m1 ← pmatch TokKind.TOK_PLUS
    let matched ← if m1 then pure true else pmatch TokKind.TOK_MINUS
    if !matched then
      pure (some left)
    else do
      let pos ← sbegin
      let kind := (← scurrent).kind
      match ← rec.multiplication with
      | none => pure none
      | some r => rec.addLoop (Expression.BinaryExpression pos kind left r)
  addition := do
    match ← rec.multiplication with
    | none => pure none
    | some l => rec.addLoop l
  shiftLoop := fun left => do
    let m1 ← pmatch TokKind.TOK_SHL
    let matched ←
      if m1 then pure true
      else do
        let m2 ← pmatch TokKind.TOK_SHR
        if m2 then pure true else pmatch TokKind.TOK_USHR
    if !matched then
      pure (some left)
    else do
      let pos ← sbegin
      let kind := (← scurrent).kind
      match ← rec.addition with
      | none => pure none
      | some r => rec.shiftLoop (Expression.BinaryExpression pos kind left r)
  shift := do
    match ← rec.addition with
    | none => pure none
    | some l => rec.shiftLoop l
  bitandLoop := fun left => do
    if !(← pmatch TokKind.TOK_BITAND) then
      pure (some left)
    else do
      let pos ← sbegin
      match ← rec.shift with
      | none => pure none
      | some r => rec.bitandLoop (Expression.BinaryExpression pos TokKind.TOK_BITAND left r)
  bitand_ := do
    match ← rec.shift with
    | none => pure none
    | some l => rec.bitandLoop l
  bitxorLoop := fun left => do
    if !(← pmatch TokKind.TOK_BITXOR) then
      pure (some left)
    else do
      let pos ← sbegin
      match ← rec.shift with
      | none => pure none
      | some r => rec.bitxorLoop (Expression.BinaryExpression pos TokKind.TOK_BITXOR left r)
  bitxor := do
    match ← rec.bitand_ with
    | none => pure none
    | some l => rec.bitxorLoop l
  bitorLoop := fun left => do
    if !(← pmatch TokKind.TOK_BITOR) then
      pure (some left)
    else do
      let pos ← sbegin
      match ← rec.bitxor with
      | none => pure none
      | some r => rec.bitorLoop (Expression.BinaryExpression pos TokKind.TOK_BITOR left r)
  bitor_ := do
    match ← rec.bitxor with
    | none => pure none
    | some l => rec.bitorLoop l
  relLoop := fun left count => do
    let kind ← speekKind
    if !(isRelationalKind kind) then
      pure (some left)
    else do
      let _ ← snext
      let pos ← sbegin
      match ← rec.shift with
      | none => pure none
      | some r => do
        let newLeft := Expression.BinaryExpression pos kind left r
        if count + 1 > 1 then do
          reportErr pos Msg.NoChainedRelationalOps
          pure none
        else
          rec.relLoop newLeft (count + 1)
  relational := do
    match ← rec.bitor_ with
    | none => pure none
    | some l => rec.relLoop l 0
  eqLoop := fun left => do
    let m1 ← pmatch TokKind.TOK_EQUALS
    let matched ← if m1 then pure true else pmatch TokKind.TOK_NOTEQUALS
    if !matched then
      pure (some left)
    else do
      let kind := (← scurrent).kind
      let pos ← sbegin
      match ← rec.relational with
      | none => pure none
      | some r => rec.eqLoop (Expression.BinaryExpression pos kind left r)
  equals := do
    match ← rec.relational with
    | none => pure none
    | some l => rec.eqLoop l
  andLoop := fun left => do
    if !(← pmatch TokKind.TOK_AND) then
      pure (some left)
    else do
      let pos ← sbegin
      match ← rec.equals with
      | none => pure none
      | some r => rec.andLoop (Expression.BinaryExpression pos TokKind.TOK_AND left r)
  and_ := do
    match ← rec.equals with
    | none => pure none
    | some l => rec.andLoop l
  orLoop := fun left => do
    if !(← pmatch TokKind.TOK_OR) then
      pure (some left)
    else do
      let pos ← sbegin
      match ← rec.and_ with
      | none => pure none
      | some r => rec.orLoop (Expression.BinaryExpression pos TokKind.TOK_OR left r)
  or_ := do
    match ← rec.and_ with
    | none => pure none
    | some l => rec.orLoop l
  ternary := do
    match ← rec.or_ with
    | none => pure none
    | some cond => do
      if !(← pmatch TokKind.TOK_QMARK) then
        pure (some cond)
      else do
        let pos ← sbegin
        withTagsOff (do
          match ← rec.expression with
          | none => pure none
          | some l => do
            if !(← pexpect TokKind.TOK_COLON) then
              pure none
            else do
              match ← rec.expression with
              | none => pure none
              | some r => pure (some (Expression.TernaryExpression pos cond l r)))
  asgLoop := fun left => do
    let token ← speekKind
    if token ≠ TokKind.TOK_ASSIGN ∧ !(isCompoundAssignKind token) then
      pure (some left)
    else do
      let _ ← snext
      let pos ← sbegin
      match ← rec.assignment with
      | none => pure none
      | some e => rec.asgLoop (Expression.Assignment pos token left e)
  assignment := do
    match ← rec.ternary with
    | none => pure none
    | some l => rec.asgLoop l
  expression := rec.assignment

/-- The fuel-indexed family of the group. -/
def exprFns : Nat → ExprFns
  | 0 => exprFnsBot
  | n+1 => exprStep (exprFns n)

/-- `Parser::primitive()`. -/
def primitive (fuel : Nat) : P (Option Expression) :=
  (exprFns fuel).primitive

/-- The member loop of `Parser::parseStructInitializer`. -/
def structInitLoop (fuel : Nat) : Nat → List (String × Expression) → P (Option Expression) :=
  (exprFns fuel).structInitLoop

/-- `Parser::parseStructInitializer(pos)`. -/
def parseStructInitializer (fuel : Nat) : Nat → P (Option Expression) :=
  (exprFns fuel).parseStructInitializer

/-- The element loop of `Parser::parseCompoundLiteral` (elements are parsed
but never appended to the list being built). -/
def compoundLoop (fuel : Nat) : P Bool :=
  (exprFns fuel).compoundLoop

/-- `Parser::parseCompoundLiteral()`. -/
def parseCompoundLiteral (fuel : Nat) : P (Option Expression) :=
  (exprFns fuel).parseCompoundLiteral

/-- `Parser::prefix()`. -/
def prefixE (fuel : Nat) : P (Option Expression) :=
  (exprFns fuel).prefixE

/-- The argument loop of `Parser::call`. -/
def callArgsLoop (fuel : Nat) : Nat → Expression → List Expression → P (Option Expression) :=
  (exprFns fuel).callArgsLoop

/-- `Parser::call(callee)`. -/
def call (fuel : Nat) : Expression → P (Option Expression) :=
  (exprFns fuel).call

/-- `Parser::index(left)`. -/
def index (fuel : Nat) : Expression → P (Option Expression) :=
  (exprFns fuel).index

/-- The postfix loop of `Parser::primary`. -/
def primaryLoop (fuel : Nat) : Expression → P (Option Expression) :=
  (exprFns fuel).primaryLoop

/-- `Parser::primary()`. -/
def primary (fuel : Nat) : P (Option Expression) :=
  (exprFns fuel).primary

/-- `Parser::unary()`. -/
def unary (fuel : Nat) : P (Option Expression) :=
  (exprFns fuel).unary

/-- The operator loop of `Parser::multiplication`. -/
def mulLoop (fuel : Nat) : Expression → P (Option Expression) :=
  (exprFns fuel).mulLoop

/-- `Parser::multiplication()`. -/
def multiplication (fuel : Nat) : P (Option Expression) :=
  (exprFns fuel).multiplication

/-- The operator loop of `Parser::addition`. -/
def addLoop (fuel : Nat) : Expression → P (Option Expression) :=
  (exprFns fuel).addLoop

/-- `Parser::addition()`. -/
def addition (fuel : Nat) : P (Option Expression) :=
  (exprFns fuel).addition

/-- The operator loop of `Parser::shift`. -/
def shiftLoop (fuel : Nat) : Expression → P (Option Expression) :=
  (exprFns fuel).shiftLoop

/-- `Parser::shift()`. -/
def shift (fuel : Nat) : P (Option Expression) :=
  (exprFns fuel).shift

/-- The operator loop of `Parser::bitand_` (right operand from `shift`). -/
def bitandLoop (fuel : Nat) : Expression → P (Option Expression) :=
  (exprFns fuel).bitandLoop

/-- `Parser::bitand_()`. -/
def bitand_ (fuel : Nat) : P (Option Expression) :=
  (exprFns fuel).bitand_

/-- The operator loop of `Parser::bitxor` — the right operand descends into
`shift`, not `bitand_`. -/
def bitxorLoop (fuel : Nat) : Expression → P (Option Expression) :=
  (exprFns fuel).bitxorLoop

/-- `Parser::bitxor()`. -/
def bitxor (fuel : Nat) : P (Option Expression) :=
  (exprFns fuel).bitxor

/-- The operator loop of `Parser::bitor_`. -/
def bitorLoop (fuel : Nat) : Expression → P (Option Expression) :=
  (exprFns fuel).bitorLoop

/-- `Parser::bitor_()`. -/
def bitor_ (fuel : Nat) : P (Option Expression) :=
  (exprFns fuel).bitor_

/-- The operator loop of `Parser::relational`, carrying the chained-operator
count. -/
def relLoop (fuel : Nat) : Expression → Nat → P (Option Expression) :=
  (exprFns fuel).relLoop

/-- `Parser::relational()`. -/
def relational (fuel : Nat) : P (Option Expression) :=
  (exprFns fuel).relational

/-- The operator loop of `Parser::equals`. -/
def eqLoop (fuel : Nat) : Expression → P (Option Expression) :=
  (exprFns fuel).eqLoop

/-- `Parser::equals()`. -/
def equals (fuel : Nat) : P (Option Expression) :=
  (exprFns fuel).equals

/-- The operator loop of `Parser::and_`. -/
def andLoop (fuel : Nat) : Expression → P (Option Expression) :=
  (exprFns fuel).andLoop

/-- `Parser::and_()`. -/
def and_ (fuel : Nat) : P (Option Expression) :=
  (exprFns fuel).and_

/-- The operator loop of `Parser::or_`. -/
def orLoop (fuel : Nat) : Expression → P (Option Expression) :=
  (exprFns fuel).orLoop

/-- `Parser::or_()`. -/
def or_ (fuel : Nat) : P (Option Expression) :=
  (exprFns fuel).or_

/-- `Parser::ternary()`.  The `AutoAllowTags<false>` scope extends to the end
of the production. -/
def ternary (fuel : Nat) : P (Option Expression) :=
  (exprFns fuel).ternary

/-- The operator loop of `Parser::assignment` (right-associative via the
recursive right operand). -/
def asgLoop (fuel : Nat) : Expression → P (Option Expression) :=
  (exprFns fuel).asgLoop

/-- `Parser::assignment()`. -/
def assignment (fuel : Nat) : P (Option Expression) :=
  (exprFns fuel).assignment

/-- `Parser::expression()`. -/
def expression (fuel : Nat) : P (Option Expression) :=
  (exprFns fuel).expression


/-- `Parser::parse_new_typename(spec, tok)`. -/
def parse_new_typename (spec : TypeSpec) (tok : Tok) : P TypeSpec := do
  if IsNewTypeToken tok.kind then
    pure (spec.setBuiltinType tok.kind)
  else if tok.kind = TokKind.TOK_LABEL then do
    let b ← sbegin
    let nm ← currentName
    reportErr b Msg.NewDeclsRequired
    pure (spec.setNamedType TokKind.TOK_LABEL nm)
  else if tok.kind ≠ TokKind.TOK_NAME then do
    reportErr (← sbegin) Msg.ExpectedTypeExpr
    pure spec
  else do
    let b ← sbegin
    let nm ← currentName
    if nm = "Float" then
      reportErr b (Msg.TypeIsDeprecated "Float" "float")
    else if nm = "String" then
      reportErr b (Msg.TypeIsDeprecated "String" "char")
    else if nm = "_" then
      reportErr b (Msg.TypeIsDeprecated "_" "int")
    pure (spec.setNamedType TokKind.TOK_NAME nm)

/-- The dimension loop of `Parser::parse_old_array_dims`, carrying the rank
and the optional dimension-size list exactly as the source does. -/
def dimsLoop : Nat → Nat → Option (List (Option Expression)) →
    P (Nat × Option (List (Option Expression)))
  | 0, rank, dims => pure (rank, dims)
  | fuel+1, rank, dims => do
    let rank := rank + 1
    if ← pmatch TokKind.TOK_RBRACKET then do
      let dims := match dims with | some d => some (d ++ [none]) | none => none
      if ← pmatch TokKind.TOK_LBRACKET then
        dimsLoop fuel rank dims
      else
        pure (rank, dims)
    else do
      let dims0 :=
        match dims with
        | some d => d
        | none => List.replicate rank none
      match ← expression fuel with
      | none => pure (rank, some dims0)
      | some e => do
        let dims1 := dims0 ++ [some e]
        if ← pexpect TokKind.TOK_RBRACKET then
          if ← pmatch TokKind.TOK_LBRACKET then
            dimsLoop fuel rank (some dims1)
          else
            pure (rank, some dims1)
        else
          pure (rank, some dims1)

/-- `Parser::parse_old_array_dims(decl, flags)` (expects the first `[` to be
consumed). -/
def parse_old_array_dims : Nat → Declaration → DFlags → P Declaration
  | 0, decl, _ => pure decl
  | fuel+1, decl, _flags => do
    let spec := decl.spec
    let loc ← sbegin
    if spec.byRef then
      reportErr loc (Msg.TypeCannotBeReference "array")
    let rd ← dimsLoop fuel 0 none
    if spec.isArray then do
      reportErr loc Msg.DoubleArrayDims
      pure decl
    else do
      let spec :=
        match rd.2 with
        | some d => spec.setDimensionSizes loc d
        | none => spec.setRank loc rd.1
      pure { decl with spec := spec.setHasPostDims }

/-- `Parser::parse_old_decl(decl, flags)`. -/
def parse_old_decl : Nat → Declaration → DFlags → P (Bool × Declaration)
  | 0, decl, _ => pure (false, decl)
  | fuel+1, decl, flags => do
    let spec := decl.spec
    let spec ←
      if ← pmatch TokKind.TOK_CONST then do
        if spec.isConst then
          reportErr (← sbegin) Msg.ConstSpecifiedTwice
        pure (spec.setConst (← sbegin))
      else
        pure spec
    let spec ←
      if flags.argument then
        if ← pmatch TokKind.TOK_AMPERSAND then
          pure (spec.setByRef (← sbegin))
        else
          pure spec
      else
        pure spec
    let spec ←
      if ← pmatch TokKind.TOK_LABEL then
        pure (spec.setNamedType TokKind.TOK_LABEL (← currentName))
      else
        pure (spec.setBuiltinType TokKind.TOK_IMPLICIT_INT)
    let vmatched ← if flags.argument then pmatch TokKind.TOK_ELLIPSES else pure false
    if vmatched then
      pure (true, { decl with spec := spec.setVariadic (← sbegin) })
    else if flags.namedMask then do
      if !(← speek TokKind.TOK_NAME) then do
        let kind ← snext
        if IsNewTypeToken kind then
          reportErr (← sbegin) Msg.NewStyleBadKeyword
        else
          sundo
      if !(← pexpect TokKind.TOK_NAME) then
        pure (false, { decl with spec := spec })
      else do
        let decl := { decl with spec := spec, name := ← scurrent }
        if ← pmatch TokKind.TOK_LBRACKET then do
          let decl ← parse_old_array_dims fuel decl flags
          pure (true, decl)
        else
          pure (true, decl)
    else
      pure (true, { decl with spec := spec })

/-- `Parser::reparse_decl(decl, flags)`. -/
def reparse_decl : Nat → Declaration → DFlags → P (Bool × Declaration)
  | 0, decl, _ => pure (false, decl)
  | fuel+1, decl, flags => do
    if !decl.spec.isNewDecl then do
      let decl := { decl with spec := decl.spec.resetWithAttrsConst }
      parse_old_decl fuel decl flags
    else if !(← pexpect TokKind.TOK_NAME) then
      pure (false, decl)
    else do
      let decl := { decl with name := ← scurrent }
      if decl.spec.hasPostDims then do
        let decl := { decl with spec := decl.spec.resetArray }
        if ← pmatch TokKind.TOK_LBRACKET then do
          let d ← parse_old_array_dims fuel decl flags
          pure (true, d)
        else
          pure (true, decl)
      else do
        if ← pmatch TokKind.TOK_LBRACKET then
          if decl.spec.isArray then
            reportErr (← sbegin) Msg.DoubleArrayDims
        pure (true, decl)

/-- The productions of this recursion group, at one fuel level. -/
structure DeclFns where
  parse_function_type : TypeSpec → DFlags → P TypeSpec
  parse_new_type_expr : TypeSpec → DFlags → P TypeSpec
  newRankLoop : Nat → P Nat
  parse_new_decl : Declaration → DFlags → P (Bool × Declaration)
  parse_decl : Declaration → DFlags → P (Bool × Declaration)
  argLoop : List VarDecl → Bool → P (Option (List VarDecl))
  arguments : P (Option (List VarDecl))

/-- The out-of-fuel bottom of the group. -/
def declFnsBot : DeclFns where
  parse_function_type := fun spec _ => pure spec
  parse_new_type_expr := fun spec _ => pure spec
  newRankLoop := fun rank => pure rank
  parse_new_decl := fun decl _ => pure (false, decl)
  parse_decl := fun decl _ => pure (false, decl)
  argLoop := fun acc _ => pure (some acc)
  arguments := pure none

/-- One fuel step of the group: each production, with its recursive
calls taken from the previous level `r`. -/
def declStep (fuel : Nat) (rec : DeclFns) : DeclFns where
  parse_function_type := fun spec _flags => do
    let _retType ← rec.parse_new_type_expr TypeSpec.empty DFlags.none0
    match ← rec.arguments with
    | none => pure spec
    | some _params => pure spec.setFunctionType
  parse_new_type_expr := fun spec flags => do
    let spec ←
      if ← pmatch TokKind.TOK_CONST then do
        if spec.isConst then
          reportErr (← sbegin) Msg.ConstSpecifiedTwice
        pure (spec.setConst (← sbegin))
      else
        pure spec
    let lparen ← pmatch TokKind.TOK_LPAREN
    let function ←
      if lparen then pexpect TokKind.TOK_FUNCTION else pmatch TokKind.TOK_FUNCTION
    let spec ←
      if function then
        rec.parse_function_type spec flags
      else do
        let _ ← snext
        let tok ← scurrent
        parse_new_typename spec tok
    if lparen then do
      let _ ← pmatch TokKind.TOK_RPAREN
    let spec ←
      if !spec.isArray then
        if ← pmatch TokKind.TOK_LBRACKET then do
          let b ← sbegin
          let rank ← rec.newRankLoop 0
          pure (spec.setRank b rank)
        else
          pure spec
      else
        pure spec
    if flags.argument then
      if ← pmatch TokKind.TOK_AMPERSAND then
        if !spec.isArray then
          pure (spec.setByRef (← sbegin))
        else do
          reportErr (← sbegin) (Msg.TypeCannotBeReference "array")
          pure spec
      else
        pure spec
    else
      pure spec
  newRankLoop := fun rank => do
    let rank := rank + 1
    if !(← pmatch TokKind.TOK_RBRACKET) then
      reportErr (← sbegin) Msg.FixedArrayInPrefix
    if ← pmatch TokKind.TOK_LBRACKET then
      rec.newRankLoop rank
    else
      pure rank
  parse_new_decl := fun decl flags => do
    let spec ← rec.parse_new_type_expr decl.spec flags
    let decl := { decl with spec := spec }
    if flags.namedMask then do
      if flags.maybeNamed then do
        let named ← pmatch TokKind.TOK_NAME
        if named then do
          let decl := { decl with name := ← scurrent }
          if ← pmatch TokKind.TOK_LBRACKET then do
            let decl ← parse_old_array_dims fuel decl flags
            pure (true, decl)
          else
            pure (true, decl)
        else
          pure (true, decl)
      else do
        if !(← pexpect TokKind.TOK_NAME) then
          pure (false, decl)
        else do
          let decl := { decl with name := ← scurrent }
          if ← pmatch TokKind.TOK_LBRACKET then do
            let decl ← parse_old_array_dims fuel decl flags
            pure (true, decl)
          else
            pure (true, decl)
    else
      pure (true, decl)
  parse_decl := fun decl flags => do
    let earlyVarargs ← if flags.argument then speek TokKind.TOK_ELLIPSES else pure false
    if earlyVarargs then
      parse_old_decl fuel decl flags
    else do
      let decl ←
        if ← pmatch TokKind.TOK_CONST then
          pure { decl with spec := decl.spec.setConst (← sbegin) }
        else
          pure decl
      if flags.old then
        parse_old_decl fuel decl flags
      else do
        let argOld ←
          if flags.argument then do
            let p1 ← speek TokKind.TOK_AMPERSAND
            if p1 then pure true else speek TokKind.TOK_LBRACE
          else
            pure false
        if argOld then
          parse_old_decl fuel decl flags
        else if ← speek TokKind.TOK_LABEL then
          parse_old_decl fuel decl flags
        else if ← pmatch TokKind.TOK_NAME then do
          let pNew ← do
            let p1 ← speek TokKind.TOK_NAME
            if p1 then pure true else speek TokKind.TOK_AMPERSAND
          if pNew then do
            sundo
            rec.parse_new_decl decl flags
          else do
            let name ← scurrent
            let brack ← if flags.namedMask then pmatch TokKind.TOK_LBRACKET else pure false
            if brack then do
              let decl ← parse_old_array_dims fuel decl flags
              let pNew2 ← do
                let p1 ← speek TokKind.TOK_NAME
                if p1 then pure true else speek TokKind.TOK_AMPERSAND
              if pNew2 then do
                let decl := { decl with spec := decl.spec.unsetHasPostDims }
                spushBack name
                rec.parse_new_decl decl flags
              else do
                let decl2 := { decl with name := name }
                pure (true, { decl2 with spec := decl2.spec.setBuiltinType TokKind.TOK_INT })
            else do
              sundo
              parse_old_decl fuel decl flags
        else
          rec.parse_new_decl decl flags
  argLoop := fun acc variadic => do
    let r ← rec.parse_decl Declaration.empty { DFlags.none0 with argument := true }
    if !r.1 then do
      let _ ← pexpect TokKind.TOK_RPAREN
      pure (some acc)
    else do
      let decl := r.2
      let init ← if ← pmatch TokKind.TOK_ASSIGN then expression fuel else pure none
      let variadic2 ←
        if decl.spec.variadic then do
          if variadic then
            reportErr decl.spec.variadicLoc Msg.MultipleVarargs
          pure true
        else
          pure variadic
      let acc := acc ++ [⟨decl.name, decl.spec, init⟩]
      if ← pmatch TokKind.TOK_COMMA then
        rec.argLoop acc variadic2
      else do
        let _ ← pexpect TokKind.TOK_RPAREN
        pure (some acc)
  arguments := do
    if !(← pexpect TokKind.TOK_LPAREN) then
      pure none
    else if ← pmatch TokKind.TOK_RPAREN then
      pure (some [])
    else
      rec.argLoop [] false

/-- The fuel-indexed family of the group. -/
def declFns : Nat → DeclFns
  | 0 => declFnsBot
  | n+1 => declStep n (declFns n)

/-- `Parser::parse_function_type(spec, flags)` (the signature payload is not
retained). -/
def parse_function_type (fuel : Nat) : TypeSpec → DFlags → P TypeSpec :=
  (declFns fuel).parse_function_type

/-- `Parser::parse_new_type_expr(spec, flags)`. -/
def parse_new_type_expr (fuel : Nat) : TypeSpec → DFlags → P TypeSpec :=
  (declFns fuel).parse_new_type_expr

/-- The prefix-rank loop of `Parser::parse_new_type_expr`. -/
def newRankLoop (fuel : Nat) : Nat → P Nat :=
  (declFns fuel).newRankLoop

/-- `Parser::parse_new_decl(decl, flags)`. -/
def parse_new_decl (fuel : Nat) : Declaration → DFlags → P (Bool × Declaration) :=
  (declFns fuel).parse_new_decl

/-- `Parser::parse_decl(decl, flags)` — the disambiguator. -/
def parse_decl (fuel : Nat) : Declaration → DFlags → P (Bool × Declaration) :=
  (declFns fuel).parse_decl

/-- The parameter loop of `Parser::arguments`. -/
def argLoop (fuel : Nat) : List VarDecl → Bool → P (Option (List VarDecl)) :=
  (declFns fuel).argLoop

/-- `Parser::arguments()`. -/
def arguments (fuel : Nat) : P (Option (List VarDecl)) :=
  (declFns fuel).arguments


/-- The comma loop of `Parser::variable` (subsequent declarators re-use the
first declarator's specifier via `reparse_decl`; a failed reparse breaks). -/
def varLoop : Nat → Declaration → List VarDecl → P (List VarDecl)
  | 0, _, acc => pure acc
  | fuel+1, decl, acc => do
    if ← pmatch TokKind.TOK_COMMA then do
      let r ← reparse_decl fuel decl { DFlags.none0 with variable_ := true }
      if !r.1 then
        pure acc
      else do
        let decl := r.2
        let init ← if ← pmatch TokKind.TOK_ASSIGN then expression fuel else pure none
        varLoop fuel decl (acc ++ [⟨decl.name, decl.spec, init⟩])
    else
      pure acc

/-- `Parser::variable(tok, decl, attrs)` (named `variableD`: `variable` is a
Lean keyword). -/
def variableD : Nat → TokKind → Declaration → DFlags → P (Option Stmt)
  | 0, _, _, _ => pure none
  | fuel+1, _tok, decl, attrs => do
    let init ← if ← pmatch TokKind.TOK_ASSIGN then expression fuel else pure none
    let first : VarDecl := ⟨decl.name, decl.spec, init⟩
    let rest ← varLoop fuel decl []
    if !attrs.inline then do
      let _ ← requireTerminator
    pure (some (Stmt.VarDeclStmt first rest))

/-- `Parser::localVariableDeclaration(kind, flags)`. -/
def localVariableDeclaration : Nat → TokKind → DFlags → P (Option Stmt)
  | 0, _, _ => pure none
  | fuel+1, kind, flags => do
    if !(← get).allowDeclarations then
      reportErr (← sbegin) Msg.VariableMustBeInBlock
    let flags := { flags with variable_ := true }
    let r ← parse_decl fuel Declaration.empty flags
    if !r.1 then
      pure none
    else
      variableD fuel kind r.2 flags

/-- `Parser::expressionStatement()`. -/
def expressionStatement : Nat → P (Option Stmt)
  | 0 => pure none
  | fuel+1 => do
    match ← assignment fuel with
    | none => pure none
    | some l => pure (some (Stmt.ExpressionStatement l))

/-- `Parser::return_()`. -/
def return_ : Nat → P (Option Stmt)
  | 0 => pure none
  | fuel+1 => do
    let pos ← sbegin
    let nxt ← speekSameLine
    if nxt ≠ TokKind.TOK_EOL ∧ nxt ≠ TokKind.TOK_EOF ∧ nxt ≠ TokKind.TOK_SEMICOLON then do
      match ← expression fuel with
      | none => pure none
      | some e => do
        modify fun s => { s with encounteredReturn := true }
        let _ ← requireTerminator
        pure (some (Stmt.ReturnStatement pos (some e)))
    else do
      let _ ← requireTerminator
      pure (some (Stmt.ReturnStatement pos none))

/-- The member loop of `Parser::enum_`. -/
def enumLoop : Nat → List (String × Option Expression) →
    P (Option (List (String × Option Expression)))
  | 0, acc => pure (some acc)
  | fuel+1, acc => do
    if (← speekKind) = TokKind.TOK_RBRACE then
      pure (some acc)
    else do
      match ← expectNameP with
      | none => pure none
      | some nm => do
        let easgn ← pmatch TokKind.TOK_ASSIGN
        let eres ← if easgn then expression fuel else pure none
        if easgn ∧ eres.isNone then
          pure none
        else do
          let acc := acc ++ [(nm, eres)]
          if ← pmatch TokKind.TOK_COMMA then
            enumLoop fuel acc
          else
            pure (some acc)

/-- `Parser::enum_()`. -/
def enum_ : Nat → P (Option Stmt)
  | 0 => pure none
  | fuel+1 => do
    let pos ← sbegin
    let m1 ← pmatch TokKind.TOK_NAME
    let m ← if m1 then pure true else pmatch TokKind.TOK_LABEL
    let nm ← if m then pure (some (← currentName)) else pure none
    if !(← pexpect TokKind.TOK_LBRACE) then
      pure none
    else do
      match ← enumLoop fuel [] with
      | none => pure none
      | some entries => do
        if !(← pexpect TokKind.TOK_RBRACE) then
          pure none
        else do
          let _ ← requireTerminator
          pure (some (Stmt.EnumStatement pos nm entries))

/-- Builds the right-leaning `ifFalse` chain that `Parser::if_` produces by
mutating the last `IfStatement`. -/
def buildIf (pos : Nat) (cond : Expression) (ifTrue : Stmt) :
    List (Nat × Expression × Stmt) → Option Stmt → Stmt
  | [], els => Stmt.IfStatement pos cond ifTrue els
  | (p, c, b) :: rest, els => Stmt.IfStatement pos cond ifTrue (some (buildIf p c b rest els))

/-- The productions of this recursion group, at one fuel level. -/
structure StmtFns where
  while_ : P (Option Stmt)
  do_ : P (Option Stmt)
  othersLoop : List Expression → P (Option (List Expression))
  switchLoop : List (Expression × Option (List Expression) × Stmt) → Option Stmt → Nat → P (Option (List (Expression × Option (List Expression) × Stmt) × Option Stmt))
  switch_ : P (Option Stmt)
  for_ : P (Option Stmt)
  ifChainLoop : P (Option (List (Nat × Expression × Stmt) × Option Stmt))
  if_ : P (Option Stmt)
  stmtsLoop : List Stmt → P (Option (List Stmt))
  block : P (Option Stmt)
  statement : P (Option Stmt)
  statementOrBlock : P (Option Stmt)

/-- The out-of-fuel bottom of the group. -/
def stmtFnsBot : StmtFns where
  while_ := pure none
  do_ := pure none
  othersLoop := fun acc => pure (some acc)
  switchLoop := fun cases defaultCase _ => pure (some (cases, defaultCase))
  switch_ := pure none
  for_ := pure none
  ifChainLoop := pure (some ([], none))
  if_ := pure none
  stmtsLoop := fun _ => pure none
  block := pure none
  statement := pure none
  statementOrBlock := pure none

/-- One fuel step of the group: each production, with its recursive
calls taken from the previous level `r`. -/
def stmtStep (fuel : Nat) (rec : StmtFns) : StmtFns where
  while_ := do
    let pos ← sbegin
    if !(← pexpect TokKind.TOK_LPAREN) then
      pure none
    else do
      match ← expression fuel with
      | none => pure none
      | some cond => do
        if !(← pexpect TokKind.TOK_RPAREN) then
          pure none
        else do
          match ← rec.statementOrBlock with
          | none => pure none
          | some body => do
            let _ ← requireNewline
            pure (some (Stmt.WhileStatement pos TokKind.TOK_WHILE cond body))
  do_ := do
    let pos ← sbegin
    let _ ← snext
    match ← rec.block with
    | none => pure none
    | some body => do
      if !(← pexpect TokKind.TOK_WHILE) then
        pure none
      else if !(← pexpect TokKind.TOK_LPAREN) then
        pure none
      else do
        match ← expression fuel with
        | none => pure none
        | some cond => do
          if !(← pexpect TokKind.TOK_RPAREN) then
            pure none
          else do
            let _ ← requireTerminator
            pure (some (Stmt.WhileStatement pos TokKind.TOK_DO cond body))
  othersLoop := fun acc => do
    if ← pmatch TokKind.TOK_COMMA then do
      match ← expression fuel with
      | none => pure none
      | some o => rec.othersLoop (acc ++ [o])
    else
      pure (some acc)
  switchLoop := fun cases defaultCase defaultPos => do
    if ← speek TokKind.TOK_RBRACE then
      pure (some (cases, defaultCase))
    else do
      let head ← do
        if ← pmatch TokKind.TOK_DEFAULT then do
          match defaultCase with
          | some _ => do
            reportErr (← sbegin) Msg.OneDefaultPerSwitch
            pure none
          | none => do
            let dp ← sbegin
            pure (some (none, none, dp))
        else do
          match defaultCase with
          | some _ => do
            reportErr defaultPos Msg.DefaultMustBeLastCase
            pure none
          | none => do
            if !(← pexpect TokKind.TOK_CASE) then
              pure none
            else
              withTagsOff (do
                match ← expression fuel with
                | none => pure none
                | some e => do
                  if ← speek TokKind.TOK_COMMA then do
                    match ← rec.othersLoop [] with
                    | none => pure none
                    | some others => pure (some (some e, some others, defaultPos))
                  else
                    pure (some (some e, none, defaultPos)))
      match head with
      | none => pure none
      | some (expr, others, defaultPos2) => do
        if !(← pexpect TokKind.TOK_COLON) then
          pure none
        else do
          match ← rec.statementOrBlock with
          | none => pure none
          | some stmt => do
            let _ ← requireNewline
            let pCase ← speek TokKind.TOK_CASE
            let pDef ← speek TokKind.TOK_DEFAULT
            let pR ← speek TokKind.TOK_RBRACE
            if !pCase ∧ !pDef ∧ !pR then do
              reportErr (← sbegin) Msg.SingleStatementPerCase
              pure none
            else do
              match expr with
              | some e => rec.switchLoop (cases ++ [(e, others, stmt)]) defaultCase defaultPos2
              | none => rec.switchLoop cases (some stmt) defaultPos2
  switch_ := do
    let pos ← sbegin
    if !(← pexpect TokKind.TOK_LPAREN) then
      pure none
    else do
      match ← expression fuel with
      | none => pure none
      | some e => do
        if !(← pexpect TokKind.TOK_RPAREN) then
          pure none
        else if !(← pexpect TokKind.TOK_LBRACE) then
          pure none
        else do
          match ← rec.switchLoop [] none 0 with
          | none => pure none
          | some r => do
            if !(← pexpect TokKind.TOK_RBRACE) then
              pure none
            else do
              let _ ← requireNewline
              pure (some (Stmt.SwitchStatement pos e r.1 r.2))
  for_ := do
    let pos ← sbegin
    if !(← pexpect TokKind.TOK_LPAREN) then
      pure none
    else do
      let declRes ←
        if ← pmatch TokKind.TOK_SEMICOLON then
          pure (some none)
        else do
          let isDecl ← do
            if ← pmatch TokKind.TOK_NEW then
              pure true
            else
              pure (IsNewTypeToken (← speekKind))
          let d ←
            if isDecl then
              localVariableDeclaration fuel TokKind.TOK_NEW { DFlags.none0 with inline := true }
            else
              expressionStatement fuel
          match d with
          | none => pure none
          | some s => do
            if !(← pexpect TokKind.TOK_SEMICOLON) then
              pure none
            else
              pure (some (some s))
      match declRes with
      | none => pure none
      | some decl => do
        let condRes ←
          if ← pmatch TokKind.TOK_SEMICOLON then
            pure (some none)
          else do
            match ← expression fuel with
            | none => pure none
            | some c => do
              if !(← pexpect TokKind.TOK_SEMICOLON) then
                pure none
              else
                pure (some (some c))
        match condRes with
        | none => pure none
        | some cond => do
          let updRes ←
            if ← pmatch TokKind.TOK_RPAREN then
              pure (some none)
            else do
              match ← expressionStatement fuel with
              | none => pure none
              | some u => do
                if !(← pexpect TokKind.TOK_RPAREN) then
                  pure none
                else
                  pure (some (some u))
          match updRes with
          | none => pure none
          | some upd => do
            match ← rec.statementOrBlock with
            | none => pure none
            | some body => do
              let _ ← requireNewline
              pure (some (Stmt.ForStatement pos decl cond upd body))
  ifChainLoop := do
    if ← pmatch TokKind.TOK_ELSE then do
      if !(← pmatch TokKind.TOK_IF) then do
        match ← rec.statementOrBlock with
        | none => pure none
        | some ifFalse => pure (some ([], some ifFalse))
      else do
        let pos ← sbegin
        if !(← pexpect TokKind.TOK_LPAREN) then
          pure none
        else do
          match ← expression fuel with
          | none => pure none
          | some cond => do
            if !(← pexpect TokKind.TOK_RPAREN) then
              pure none
            else do
              match ← rec.statementOrBlock with
              | none => pure none
              | some body => do
                match ← rec.ifChainLoop with
                | none => pure none
                | some r => pure (some ((pos, cond, body) :: r.1, r.2))
    else
      pure (some ([], none))
  if_ := do
    let pos ← sbegin
    if !(← pexpect TokKind.TOK_LPAREN) then
      pure none
    else do
      match ← expression fuel with
      | none => pure none
      | some cond => do
        if !(← pexpect TokKind.TOK_RPAREN) then
          pure none
        else do
          match ← rec.statementOrBlock with
          | none => pure none
          | some ifTrue => do
            match ← rec.ifChainLoop with
            | none => pure none
            | some r => do
              let _ ← requireNewline
              pure (some (buildIf pos cond ifTrue r.1 r.2))
  stmtsLoop := fun acc => do
    if ← pmatch TokKind.TOK_RBRACE then
      pure (some acc)
    else do
      match ← rec.statement with
      | none => pure none
      | some s => rec.stmtsLoop (acc ++ [s])
  block := do
    if !(← pexpect TokKind.TOK_LBRACE) then
      pure none
    else do
      let pos ← sbegin
      let saved := (← get).allowDeclarations
      modify fun s => { s with allowDeclarations := true }
      let r ← rec.stmtsLoop []
      modify fun s => { s with allowDeclarations := saved }
      match r with
      | none => pure none
      | some list => pure (some (Stmt.BlockStatement pos list))
  statement := do
    if ← speek TokKind.TOK_LBRACE then
      rec.block
    else do
      let kind ← snext
      let isDeclName ←
        if kind = TokKind.TOK_NAME then do
          if ← pmatch TokKind.TOK_LBRACKET then do
            let r ← speek TokKind.TOK_RBRACKET
            sundo
            pure r
          else
            speek TokKind.TOK_NAME
        else
          pure false
      if isDeclName then do
        sundo
        localVariableDeclaration fuel TokKind.TOK_NEW DFlags.none0
      else if IsNewTypeToken kind ∨ kind = TokKind.TOK_DECL ∨ kind = TokKind.TOK_STATIC ∨
          kind = TokKind.TOK_NEW then do
        if IsNewTypeToken kind then do
          sundo
          localVariableDeclaration fuel TokKind.TOK_NEW DFlags.none0
        else
          localVariableDeclaration fuel kind DFlags.none0
      else do
        match kind with
        | TokKind.TOK_FOR => rec.for_
        | TokKind.TOK_WHILE => rec.while_
        | TokKind.TOK_DO => rec.do_
        | TokKind.TOK_RETURN => return_ fuel
        | TokKind.TOK_ENUM => enum_ fuel
        | TokKind.TOK_SWITCH => rec.switch_
        | TokKind.TOK_IF => rec.if_
        | TokKind.TOK_BREAK => do
          let stmt := Stmt.BreakStatement (← sbegin)
          let _ ← requireTerminator
          pure (some stmt)
        | TokKind.TOK_CONTINUE => do
          let stmt := Stmt.ContinueStatement (← sbegin)
          let _ ← requireTerminator
          pure (some stmt)
        | _ => do
          sundo
          match ← expressionStatement fuel with
          | none => pure none
          | some stmt => do
            let _ ← requireTerminator
            pure (some stmt)
  statementOrBlock := do
    let saved := (← get).allowDeclarations
    modify fun s => { s with allowDeclarations := false }
    let r ← rec.statement
    modify fun s => { s with allowDeclarations := saved }
    pure r

/-- The fuel-indexed family of the group. -/
def stmtFns : Nat → StmtFns
  | 0 => stmtFnsBot
  | n+1 => stmtStep n (stmtFns n)

/-- `Parser::while_()` (the `while` token is already consumed). -/
def while_ (fuel : Nat) : P (Option Stmt) :=
  (stmtFns fuel).while_

/-- `Parser::do_()` (consumes one token before the block, as the source
does). -/
def do_ (fuel : Nat) : P (Option Stmt) :=
  (stmtFns fuel).do_

/-- The comma loop collecting extra `case` values. -/
def othersLoop (fuel : Nat) : List Expression → P (Option (List Expression)) :=
  (stmtFns fuel).othersLoop

/-- The case loop of `Parser::switch_`, carrying the collected cases, the
default case and its recorded position. -/
def switchLoop (fuel : Nat) : List (Expression × Option (List Expression) × Stmt) → Option Stmt → Nat → P (Option (List (Expression × Option (List Expression) × Stmt) × Option Stmt)) :=
  (stmtFns fuel).switchLoop

/-- `Parser::switch_()` (the `switch` token is already consumed). -/
def switch_ (fuel : Nat) : P (Option Stmt) :=
  (stmtFns fuel).switch_

/-- `Parser::for_()` (the `for` token is already consumed). -/
def for_ (fuel : Nat) : P (Option Stmt) :=
  (stmtFns fuel).for_

/-- The `else`/`else if` chain loop of `Parser::if_`. -/
def ifChainLoop (fuel : Nat) : P (Option (List (Nat × Expression × Stmt) × Option Stmt)) :=
  (stmtFns fuel).ifChainLoop

/-- `Parser::if_()` (the `if` token is already consumed). -/
def if_ (fuel : Nat) : P (Option Stmt) :=
  (stmtFns fuel).if_

/-- The statement loop of `Parser::statements` (the `{` is consumed). -/
def stmtsLoop (fuel : Nat) : List Stmt → P (Option (List Stmt)) :=
  (stmtFns fuel).stmtsLoop

/-- `Parser::block()`. -/
def block (fuel : Nat) : P (Option Stmt) :=
  (stmtFns fuel).block

/-- `Parser::statement()`. -/
def statement (fuel : Nat) : P (Option Stmt) :=
  (stmtFns fuel).statement

/-- `Parser::statementOrBlock()`. -/
def statementOrBlock (fuel : Nat) : P (Option Stmt) :=
  (stmtFns fuel).statementOrBlock


/-- The global productions dispatched by `Parser::parse` (`global`,
`methodmap`, `enum_`, `struct_`, `typedef_`).  The top-level loop theorems
hold for every choice of these handlers, so the loop's control flow is
verified independently of the productions' own behaviour. -/
structure GlobalHandlers where
  globalH : TokKind → P (Option Stmt)
  methodmapH : P (Option Stmt)
  enumH : P (Option Stmt)
  structH : TokKind → P (Option Stmt)
  typedefH : P (Option Stmt)

/-- The dispatch loop of `Parser::parse`, transcribed from the source.  The
result is `none` when the fuel runs out, `some none` for the source's
`return nullptr`, and `some (some tree)` for a returned `ParseTree`. -/
def parseLoop (h : GlobalHandlers) : Nat → List Stmt → P (Option (Option ParseTree))
  | 0, _ => pure none
  | fuel+1, acc => do
    let cont : Option Stmt → P (Option (Option ParseTree)) := fun st => do
      match st with
      | none => do
        if (← scurrent).kind = TokKind.TOK_EOF then
          pure (some (some acc))
        else
          parseLoop h fuel acc
      | some s => parseLoop h fuel (acc ++ [s])
    let kind ← snext
    match kind with
    | TokKind.TOK_ERROR => pure (some none)
    | TokKind.TOK_EOF => pure (some (some acc))
    | TokKind.TOK_NAME | TokKind.TOK_CHAR | TokKind.TOK_INT | TokKind.TOK_VOID
    | TokKind.TOK_OBJECT | TokKind.TOK_FLOAT | TokKind.TOK_LABEL => do
      sundo
      cont (← h.globalH kind)
    | TokKind.TOK_NEW | TokKind.TOK_STATIC | TokKind.TOK_PUBLIC | TokKind.TOK_STOCK
    | TokKind.TOK_NATIVE | TokKind.TOK_FORWARD => do
      cont (← h.globalH kind)
    | TokKind.TOK_METHODMAP => do
      cont (← h.methodmapH)
    | TokKind.TOK_ENUM => do
      cont (← h.enumH)
    | TokKind.TOK_STRUCT => do
      cont (← h.structH kind)
    | TokKind.TOK_UNION => do
      cont (← h.structH kind)
    | TokKind.TOK_TYPEDEF => do
      cont (← h.typedefH)
    | TokKind.TOK_FUNCTAG => do
      reportErr (← sbegin) Msg.FunctagsNotSupported
      eatRestOfLineP
      cont none
    | _ => do
      reportErr (← sbegin) Msg.ExpectedGlobal
      pure (some (some acc))

  termination_by structural fuel _x1 => fuel
/-- `Parser::parse()`. -/
def parse (h : GlobalHandlers) (fuel : Nat) : P (Option (Option ParseTree)) :=
  parseLoop h fuel []

/-- The token kinds `Parser::parse` dispatches on (everything else reaches
the `default:` arm and its `goto err_out`). -/
def isGlobalStartKind : TokKind → Bool
  | TokKind.TOK_ERROR | TokKind.TOK_EOF | TokKind.TOK_NAME | TokKind.TOK_CHAR
  | TokKind.TOK_INT | TokKind.TOK_VOID | TokKind.TOK_OBJECT | TokKind.TOK_FLOAT
  | TokKind.TOK_LABEL | TokKind.TOK_NEW | TokKind.TOK_STATIC | TokKind.TOK_PUBLIC
  | TokKind.TOK_STOCK | TokKind.TOK_NATIVE | TokKind.TOK_FORWARD
  | TokKind.TOK_METHODMAP | TokKind.TOK_ENUM | TokKind.TOK_STRUCT | TokKind.TOK_UNION
  | TokKind.TOK_TYPEDEF | TokKind.TOK_FUNCTAG => true
  | _ => false

/-- A handler set that always fails (enough for runs that never reach a
handler). -/
def nullHandlers : GlobalHandlers :=
  ⟨fun _ => pure none, pure none, pure none, fun _ => pure none, pure none⟩

/-! Concrete token streams used to exercise the parser. -/

/-- A punctuation/keyword token. -/
def mkTok (k : TokKind) (line pos : Nat) : Tok := ⟨k, line, pos, "", 0⟩

/-- An identifier token. -/
def mkNameTok (s : String) (line pos : Nat) : Tok := ⟨TokKind.TOK_NAME, line, pos, s, 0⟩

/-- An integer-literal token. -/
def mkIntTok (v : Int) (line pos : Nat) : Tok := ⟨TokKind.TOK_INTEGER_LITERAL, line, pos, "", v⟩

/-- A fresh parser state over a token stream. -/
def pst0 (ts : List Tok) : PState := ⟨⟨[], ts, true, true⟩, [], true, false⟩

/-- `DeclFlags::Variable`. -/
def varFlags : DFlags := { DFlags.none0 with variable_ := true }

/-- A stream whose first token is the scanner error token. -/
def c5toks : List Tok := [mkTok TokKind.TOK_ERROR 1 1, mkTok TokKind.TOK_EOF 2 2]

/-- `x < y` (one relational operator). -/
def c6OneToks (x y : String) : List Tok :=
  [mkNameTok x 1 1, mkTok TokKind.TOK_LT 1 2, mkNameTok y 1 3, mkTok TokKind.TOK_EOF 2 4]

/-- `x < y < z` (two relational operators). -/
def c6TwoToks (x y z : String) : List Tok :=
  [mkNameTok x 1 1, mkTok TokKind.TOK_LT 1 2, mkNameTok y 1 3,
   mkTok TokKind.TOK_LT 1 4, mkNameTok z 1 5, mkTok TokKind.TOK_EOF 2 6]

/-- `switch (k) { case 1: a(); case 2: b(); default: c(); case 3: d(); }`,
with the `default` keyword at position 40 and `case 3` at position 50. -/
def c7toks : List Tok :=
  [mkTok TokKind.TOK_SWITCH 1 10, mkTok TokKind.TOK_LPAREN 1 11, mkNameTok "k" 1 12,
   mkTok TokKind.TOK_RPAREN 1 13, mkTok TokKind.TOK_LBRACE 1 14,
   mkTok TokKind.TOK_CASE 2 20, mkIntTok 1 2 21, mkTok TokKind.TOK_COLON 2 22,
     mkNameTok "a" 2 23, mkTok TokKind.TOK_LPAREN 2 24, mkTok TokKind.TOK_RPAREN 2 25,
     mkTok TokKind.TOK_SEMICOLON 2 26,
   mkTok TokKind.TOK_CASE 3 30, mkIntTok 2 3 31, mkTok TokKind.TOK_COLON 3 32,
     mkNameTok "b" 3 33, mkTok TokKind.TOK_LPAREN 3 34, mkTok TokKind.TOK_RPAREN 3 35,
     mkTok TokKind.TOK_SEMICOLON 3 36,
   mkTok TokKind.TOK_DEFAULT 4 40, mkTok TokKind.TOK_COLON 4 41, mkNameTok "c" 4 42,
     mkTok TokKind.TOK_LPAREN 4 43, mkTok TokKind.TOK_RPAREN 4 44,
     mkTok TokKind.TOK_SEMICOLON 4 45,
   mkTok TokKind.TOK_CASE 5 50, mkIntTok 3 5 51, mkTok TokKind.TOK_COLON 5 52,
     mkNameTok "d" 5 53, mkTok TokKind.TOK_LPAREN 5 54, mkTok TokKind.TOK_RPAREN 5 55,
     mkTok TokKind.TOK_SEMICOLON 5 56,
   mkTok TokKind.TOK_RBRACE 6 60, mkTok TokKind.TOK_EOF 7 61]

/-- `a ^ b & c`. -/
def c8Toks (a b c : String) : List Tok :=
  [mkNameTok a 1 1, mkTok TokKind.TOK_BITXOR 1 2, mkNameTok b 1 3,
   mkTok TokKind.TOK_BITAND 1 4, mkNameTok c 1 5, mkTok TokKind.TOK_EOF 2 6]

/-- `x [ ]` — the common prefix of the `parse_decl` disambiguation inputs. -/
def c9Head (x : String) : List Tok :=
  [mkNameTok x 1 1, mkTok TokKind.TOK_LBRACKET 1 2, mkTok TokKind.TOK_RBRACKET 1 3]

/-- The consumed-token stack after `parse_decl` has scanned `x [ ]`. -/
def c9PastOf (x : String) : List Tok :=
  [mkTok TokKind.TOK_RBRACKET 1 3, mkTok TokKind.TOK_LBRACKET 1 2, mkNameTok x 1 1]

/-- The specifier produced by the old-style accept path of `parse_decl`:
rank-1 post dims with the implicit `int` builtin type. -/
def c9OldSpec : TypeSpec :=
  { TypeSpec.empty with rank := 1, hasPostDims := true, resolver := TokKind.TOK_INT }

/-- The specifier produced by the new-style re-parse of `x[] y`: the saved
NAME becomes the type proxy, rank 1, post-dims flag cleared. -/
def c9NewSpec (x : String) : TypeSpec :=
  { TypeSpec.empty with resolver := TokKind.TOK_NAME, proxyName := x, rank := 1 }

/-- `{ 1, 2 }`. -/
def c10toks : List Tok :=
  [mkTok TokKind.TOK_LBRACE 1 1, mkIntTok 1 1 2, mkTok TokKind.TOK_COMMA 1 3,
   mkIntTok 2 1 4, mkTok TokKind.TOK_RBRACE 1 5, mkTok TokKind.TOK_EOF 2 6]

/-- The parser state inside `{ 1, 2 }`, just after the opening brace has been
consumed (where `parseCompoundLiteral` takes over). -/
def c10inner : PState :=
  ⟨⟨[mkTok TokKind.TOK_LBRACE 1 1],
    [mkIntTok 1 1 2, mkTok TokKind.TOK_COMMA 1 3, mkIntTok 2 1 4,
     mkTok TokKind.TOK_RBRACE 1 5, mkTok TokKind.TOK_EOF 2 6], true, true⟩, [], true, false⟩

/-! ## Theorems -/

theorem heapPushCount_append (l1 l2 : List Ins) :
    heapPushCount (l1 ++ l2) = heapPushCount l1 + heapPushCount l2 :=
  List.countP_append _ _ _

theorem heapPopCount_append (l1 l2 : List Ins) :
    heapPopCount (l1 ++ l2) = heapPopCount l1 + heapPopCount l2 :=
  List.countP_append _ _ _

theorem heapPushCount_singleton (i : Ins) :
    heapPushCount [i] = if isHeapPushI i then 1 else 0 := by
  simp [heapPushCount, List.countP_cons]

theorem heapPopCount_singleton (i : Ins) :
    heapPopCount [i] = if isHeapPopI i then 1 else 0 := by
  simp [heapPopCount, List.countP_cons]

theorem markStatic_heap_length (n : Int) (st : EmitSt) :
    (EmitSt.markStatic n st).heap.length = st.heap.length := by
  cases h : st.heap <;> simp [EmitSt.markStatic, h]

theorem emitI_code (i : Ins) (st : EmitSt) : (EmitSt.emitI i st).code = st.code ++ [i] := rfl

theorem emitI_heap (i : Ins) (st : EmitSt) : (EmitSt.emitI i st).heap = st.heap := rfl

theorem markStatic_code (n : Int) (st : EmitSt) : (EmitSt.markStatic n st).code = st.code := rfl

theorem setheapPri_code (st : EmitSt) :
    (EmitSt.setheapPri st).code = st.code ++ [Ins.setheap_pri] := rfl

theorem setheapPri_heap_length (st : EmitSt) :
    (EmitSt.setheapPri st).heap.length = st.heap.length :=
  markStatic_heap_length _ _

theorem emitExpr_code (e : HExpr) (st : EmitSt) :
    (EmitSt.emitExpr e st).code = st.code ++ HExpr.emitCode e := by
  unfold EmitSt.emitExpr HExpr.emitCode
  split <;> simp [emitI_code, markStatic_code]

theorem emitExpr_heap_length (e : HExpr) (st : EmitSt) :
    (EmitSt.emitExpr e st).heap.length = st.heap.length := by
  unfold EmitSt.emitExpr
  split <;> simp [emitI_heap, markStatic_heap_length]

theorem pushCount_emitCode (e : HExpr) :
    heapPushCount (HExpr.emitCode e) =
      if e.val.ident = Ident.CONSTEXPR then 0 else heapPushCount e.code := by
  unfold HExpr.emitCode
  split <;> simp [heapPushCount_singleton, isHeapPushI]

theorem popCount_emitCode (e : HExpr) :
    heapPopCount (HExpr.emitCode e) =
      if e.val.ident = Ident.CONSTEXPR then 0 else heapPopCount e.code := by
  unfold HExpr.emitCode
  split <;> simp [heapPopCount_singleton, isHeapPopI]

/-- The instruction trace of `TernaryExpr::DoEmit` appended to the incoming
state, fully explicit. -/
theorem ternary_code_shape (first second third : HExpr) (vident : Ident) (st : EmitSt) :
    (TernaryExpr.DoEmit first second third vident st).code =
      st.code ++ HExpr.emitCode first ++
        [Ins.heapPush, Ins.jmp_eq0 st.nextLabel] ++
        HExpr.emitCode second ++ [Ins.heapPopStatic] ++
        (if HExpr.allocOf second ≠ 0 then [Ins.setheap_save (HExpr.allocOf second * 4)] else []) ++
        [Ins.heapPush, Ins.jumplabel (st.nextLabel + 1), Ins.setlabel st.nextLabel] ++
        HExpr.emitCode third ++ [Ins.heapPopStatic] ++
        (if HExpr.allocOf third ≠ 0 then [Ins.setheap_save (HExpr.allocOf third * 4)] else []) ++
        [Ins.setlabel (st.nextLabel + 1)] ++
        (if vident = Ident.REFARRAY ∧ HExpr.allocOf second ≠ 0 ∧ HExpr.allocOf third ≠ 0 then
          [Ins.markheap true 0]
        else []) := by
  unfold TernaryExpr.DoEmit
  by_cases h1 : first.val.ident = Ident.CONSTEXPR <;>
  by_cases h2 : second.val.ident = Ident.CONSTEXPR <;>
  by_cases h3 : third.val.ident = Ident.CONSTEXPR <;>
  by_cases hv : vident = Ident.REFARRAY <;>
  by_cases ha2 : second.alloc = 0 <;>
  by_cases ha3 : third.alloc = 0 <;>
    simp [EmitSt.emitExpr, EmitSt.emitI, EmitSt.getlabel, EmitSt.pushheaplist,
      EmitSt.pop_static_heaplist, EmitSt.markStatic, HExpr.emitCode, HExpr.allocOf,
      h1, h2, h3, hv, ha2, ha3]

/-- `TernaryExpr::DoEmit` leaves the heap-list stack as the condition's own
emission left it (both branch frames opened by the routine are closed). -/
theorem ternary_heap_shape (first second third : HExpr) (vident : Ident) (st : EmitSt) :
    (TernaryExpr.DoEmit first second third vident st).heap =
      (EmitSt.markStatic (HExpr.allocOf first) st).heap := by
  unfold TernaryExpr.DoEmit
  by_cases h1 : first.val.ident = Ident.CONSTEXPR <;>
  by_cases h2 : second.val.ident = Ident.CONSTEXPR <;>
  by_cases h3 : third.val.ident = Ident.CONSTEXPR <;>
  by_cases hv : vident = Ident.REFARRAY <;>
  by_cases ha2 : second.alloc = 0 <;>
  by_cases ha3 : third.alloc = 0 <;>
    simp [EmitSt.emitExpr, EmitSt.emitI, EmitSt.getlabel, EmitSt.pushheaplist,
      EmitSt.pop_static_heaplist, EmitSt.markStatic, HExpr.allocOf,
      h1, h2, h3, hv, ha2, ha3]
  all_goals cases st.heap <;> simp

/-- One argument-loop iteration of `CallExpr::DoEmit` performs no heap-list
push or pop and preserves the stack depth, provided the argument expression's
own code does not either. -/
theorem emitArg_counts (a : ArgvEntry) (st : EmitSt)
    (h1 : heapPushCount a.code = 0) (h2 : heapPopCount a.code = 0) :
    heapPushCount (CallExpr.emitArg a st).code = heapPushCount st.code ∧
    heapPopCount (CallExpr.emitArg a st).code = heapPopCount st.code ∧
    (CallExpr.emitArg a st).heap.length = st.heap.length := by
  unfold CallExpr.emitArg
  split
  · simp [emitI_code, emitExpr_code, emitI_heap, emitExpr_heap_length,
      heapPushCount_append, heapPopCount_append, heapPushCount_singleton,
      heapPopCount_singleton, pushCount_emitCode, popCount_emitCode,
      isHeapPushI, isHeapPopI, h1, h2]
  · split <;> (repeat' split) <;>
      simp [emitI_code, emitExpr_code, emitI_heap, emitExpr_heap_length, setheapPri_code,
        setheapPri_heap_length, heapPushCount_append, heapPopCount_append,
        heapPushCount_singleton, heapPopCount_singleton, pushCount_emitCode,
        popCount_emitCode, isHeapPushI, isHeapPopI, h1, h2] <;>
      simp [heapPushCount, heapPopCount, List.countP_cons, isHeapPushI, isHeapPopI]

/-- The whole right-to-left argument loop performs no heap-list push or pop
and preserves the stack depth. -/
theorem foldl_emitArg_counts (args : List ArgvEntry) (st : EmitSt)
    (h : ∀ a ∈ args, heapPushCount a.code = 0 ∧ heapPopCount a.code = 0) :
    heapPushCount (args.foldl (fun s a => CallExpr.emitArg a s) st).code
        = heapPushCount st.code ∧
    heapPopCount (args.foldl (fun s a => CallExpr.emitArg a s) st).code
        = heapPopCount st.code ∧
    (args.foldl (fun s a => CallExpr.emitArg a s) st).heap.length = st.heap.length := by
  induction args generalizing st with
  | nil => simp
  | cons a rest ih =>
    have ha := h a (by simp)
    have hrest : ∀ b ∈ rest, heapPushCount b.code = 0 ∧ heapPopCount b.code = 0 :=
      fun b hb => h b (by simp [hb])
    have hstep := emitArg_counts a st ha.1 ha.2
    have := ih (CallExpr.emitArg a st) hrest
    simp only [List.foldl_cons]
    exact ⟨this.1.trans hstep.1, this.2.1.trans hstep.2.1, this.2.2.trans hstep.2.2⟩

theorem pushheaplist_code (st : EmitSt) :
    (EmitSt.pushheaplist st).code = st.code ++ [Ins.heapPush] := rfl

theorem pushheaplist_heap (st : EmitSt) :
    (EmitSt.pushheaplist st).heap = 0 :: st.heap := rfl

theorem popheaplist_code (b : Bool) (st : EmitSt) :
    (EmitSt.popheaplist b st).code = st.code ++ [Ins.heapPop b] := rfl

theorem popheaplist_heap (b : Bool) (st : EmitSt) :
    (EmitSt.popheaplist b st).heap = st.heap.tail := rfl

theorem markheapOp_code (d : Bool) (n : Int) (st : EmitSt) :
    (EmitSt.markheapOp d n st).code = st.code ++ [Ins.markheap d n] := rfl

theorem markheapOp_heap_length (d : Bool) (n : Int) (st : EmitSt) :
    (EmitSt.markheapOp d n st).heap.length = st.heap.length :=
  markStatic_heap_length _ _

/-- `CallExpr::DoEmit` opens exactly one heap frame and closes exactly one,
and restores the heap-list depth, provided the argument expressions' own
code performs no heap-list operations. -/
theorem call_balance (retArraySize : Option Int) (argv : List ArgvEntry) (sym : String)
    (st : EmitSt) (h : ∀ a ∈ argv, heapPushCount a.code = 0 ∧ heapPopCount a.code = 0) :
    heapPushCount (CallExpr.DoEmit retArraySize argv sym st).code
        = heapPushCount st.code + 1 ∧
    heapPopCount (CallExpr.DoEmit retArraySize argv sym st).code
        = heapPopCount st.code + 1 ∧
    (CallExpr.DoEmit retArraySize argv sym st).heap.length = st.heap.length := by
  have hrev : ∀ a ∈ argv.reverse, heapPushCount a.code = 0 ∧ heapPopCount a.code = 0 :=
    fun a ha => h a (List.mem_reverse.mp ha)
  unfold CallExpr.DoEmit
  cases retArraySize with
  | none =>
    obtain ⟨f1, f2, f3⟩ := foldl_emitArg_counts argv.reverse (EmitSt.pushheaplist st) hrev
    dsimp only
    refine ⟨?_, ?_, ?_⟩
    · rw [popheaplist_code, emitI_code, heapPushCount_append, heapPushCount_append, f1,
        pushheaplist_code, heapPushCount_append]
      rfl
    · rw [popheaplist_code, emitI_code, heapPopCount_append, heapPopCount_append, f2,
        pushheaplist_code, heapPopCount_append]
      rfl
    · rw [popheaplist_heap, emitI_heap, List.length_tail, f3, pushheaplist_heap]
      simp
  | some retsize =>
    obtain ⟨f1, f2, f3⟩ := foldl_emitArg_counts argv.reverse
      (EmitSt.pushheaplist (EmitSt.markheapOp false retsize
        ((st.emitI (Ins.modheap (retsize * 4))).emitI (Ins.pushreg Reg.ALT)))) hrev
    dsimp only
    refine ⟨?_, ?_, ?_⟩
    · rw [popheaplist_code, emitI_code, emitI_code, heapPushCount_append, heapPushCount_append,
        heapPushCount_append, f1, pushheaplist_code, heapPushCount_append, markheapOp_code,
        heapPushCount_append, emitI_code, heapPushCount_append, emitI_code, heapPushCount_append]
      rfl
    · rw [popheaplist_code, emitI_code, emitI_code, heapPopCount_append, heapPopCount_append,
        heapPopCount_append, f2, pushheaplist_code, heapPopCount_append, markheapOp_code,
        heapPopCount_append, emitI_code, heapPopCount_append, emitI_code, heapPopCount_append]
      rfl
    · rw [popheaplist_heap, emitI_heap, emitI_heap, List.length_tail, f3, pushheaplist_heap]
      simp [markheapOp_heap_length, emitI_heap]

theorem heapPushCount_save_ite (c : Prop) [Decidable c] (x : Int) :
    heapPushCount (if c then [Ins.setheap_save x] else []) = 0 := by
  split <;> rfl

theorem heapPopCount_save_ite (c : Prop) [Decidable c] (x : Int) :
    heapPopCount (if c then [Ins.setheap_save x] else []) = 0 := by
  split <;> rfl

theorem heapPushCount_mark_ite (c : Prop) [Decidable c] :
    heapPushCount (if c then [Ins.markheap true 0] else []) = 0 := by
  split <;> rfl

theorem heapPopCount_mark_ite (c : Prop) [Decidable c] :
    heapPopCount (if c then [Ins.markheap true 0] else []) = 0 := by
  split <;> rfl

theorem heapPushCount_cons (i : Ins) (l : List Ins) :
    heapPushCount (i :: l) = heapPushCount l + if isHeapPushI i then 1 else 0 :=
  List.countP_cons _ _ _

theorem heapPopCount_cons (i : Ins) (l : List Ins) :
    heapPopCount (i :: l) = heapPopCount l + if isHeapPopI i then 1 else 0 :=
  List.countP_cons _ _ _

theorem heapPushCount_nil : heapPushCount [] = 0 := rfl

theorem heapPopCount_nil : heapPopCount [] = 0 := rfl

/-- `TernaryExpr::DoEmit` opens exactly two heap frames and closes exactly
two, and restores the heap-list depth, provided the three sub-expressions'
own code performs no heap-list operations. -/
theorem ternary_balance (first second third : HExpr) (vident : Ident) (st : EmitSt)
    (hp1 : heapPushCount first.code = 0) (hq1 : heapPopCount first.code = 0)
    (hp2 : heapPushCount second.code = 0) (hq2 : heapPopCount second.code = 0)
    (hp3 : heapPushCount third.code = 0) (hq3 : heapPopCount third.code = 0) :
    heapPushCount (TernaryExpr.DoEmit first second third vident st).code
        = heapPushCount st.code + 2 ∧
    heapPopCount (TernaryExpr.DoEmit first second third vident st).code
        = heapPopCount st.code + 2 ∧
    (TernaryExpr.DoEmit first second third vident st).heap.length = st.heap.length := by
  refine ⟨?_, ?_, ?_⟩
  · rw [ternary_code_shape]
    by_cases a2 : HExpr.allocOf second = 0 <;>
    by_cases a3 : HExpr.allocOf third = 0 <;>
    by_cases hv : vident = Ident.REFARRAY <;>
      simp [a2, a3, hv, heapPushCount_append, heapPushCount_cons, heapPushCount_nil,
        pushCount_emitCode, isHeapPushI, hp1, hp2, hp3]
  · rw [ternary_code_shape]
    by_cases a2 : HExpr.allocOf second = 0 <;>
    by_cases a3 : HExpr.allocOf third = 0 <;>
    by_cases hv : vident = Ident.REFARRAY <;>
      simp [a2, a3, hv, heapPopCount_append, heapPopCount_cons, heapPopCount_nil,
        popCount_emitCode, isHeapPopI, hq1, hq2, hq3]
  · rw [ternary_heap_shape]
    exact markStatic_heap_length _ _

/-- Claim C1. For every non-chained `BinaryExpr`, `EmitInner` follows exactly
the claimed case table (left operand ends in ALT, right in PRI, before the
operator is applied), and the codegen of `int a = 1 + 2 * 3;` is exactly
`ldconst 3 PRI; ldconst 2 ALT; mul; ldconst 1 ALT; add; store a` — for any
commutativity predicate, since that path never consults it. -/
theorem C1_emitinner_operand_placement :
    (∀ (commutative : Option Op → Bool) (oper : Option Op) (useropSym : Bool)
        (left right : Operand),
        BinaryExpr.EmitInner commutative oper useropSym left right =
          emitInnerSpecTable commutative oper useropSym left right) ∧
    (∀ commutative : Option Op → Bool,
        BExpr.doEmit commutative treeAssignExample =
          [Ins.ldconst 3 Reg.PRI, Ins.ldconst 2 Reg.ALT, Ins.oper Op.mul,
           Ins.ldconst 1 Reg.ALT, Ins.oper Op.add, Ins.store varAVal]) := by
  constructor
  · intro c oper u l r
    unfold BinaryExpr.EmitInner emitInnerSpecTable
    by_cases hl : l.val.ident = Ident.CONSTEXPR <;>
      by_cases hr : r.val.ident = Ident.CONSTEXPR <;>
        simp [hl, hr, Expr.emit]
    · by_cases hc : c oper <;>
        simp [hc] <;>
        by_cases hm : oper.isSome = true ∨ l.val.canRema = false <;> simp [hm]
    · by_cases hm : oper.isSome = true ∨ l.val.canRema = false <;> simp [hm]
  · intro _
    rfl

/-- Claim C2. `LogicalExpr::EmitTest` on a nonempty flattened same-kind operand
list issues, per element, exactly the test sense and jump target of the
claimed truth table (one of four cases for (op, jump_on_true)). -/
theorem C2_logical_emittest_table {α : Type} (isOr jump_on_true : Bool)
    (taken fall : Nat) (seq : List α) (hne : seq ≠ []) :
    (LogicalExpr.EmitTestCalls isOr jump_on_true taken fall seq).map
        (fun q => (q.1, q.2.1, q.2.2.1)) =
      logicalTestSpecTable isOr jump_on_true taken fall seq := by
  rcases List.eq_nil_or_concat seq with rfl | ⟨L, b, rfl⟩
  · exact absurd rfl hne
  · cases isOr <;> cases jump_on_true <;>
      simp [LogicalExpr.EmitTestCalls, logicalTestSpecTable, List.dropLast_concat,
        List.getLast?_concat, Function.comp]

/-- Witness for C2 at a concrete three-element sequence (`a || b || c` under
jump-on-false). -/
theorem C2_logical_emittest_table_witness :
    ([0, 1, 2] : List Nat) ≠ [] ∧
      (LogicalExpr.EmitTestCalls true false 7 8 ([0, 1, 2] : List Nat)).map
          (fun q => (q.1, q.2.1, q.2.2.1)) =
        logicalTestSpecTable true false 7 8 ([0, 1, 2] : List Nat) :=
  ⟨by decide, C2_logical_emittest_table true false 7 8 [0, 1, 2] (by decide)⟩

/-- Claim C3. `TernaryExpr::DoEmit` emits exactly: the condition;
`pushheaplist`; `jmp_eq0 flab1`; the then-branch; `pop_static_heaplist` with
a `setheap_save` of its total iff nonzero; `pushheaplist`; `jumplabel flab2`;
`setlabel flab1`; the else-branch; the same pop/save pattern;
`setlabel flab2`; and `markheap(MEMUSE_DYNAMIC, 0)` iff the value is a
REFARRAY and both branch totals are nonzero. -/
theorem C3_ternary_emit_sequence (first second third : HExpr) (vident : Ident)
    (st : EmitSt) :
    (TernaryExpr.DoEmit first second third vident st).code =
      st.code ++ HExpr.emitCode first ++
        [Ins.heapPush, Ins.jmp_eq0 st.nextLabel] ++
        HExpr.emitCode second ++ [Ins.heapPopStatic] ++
        (if HExpr.allocOf second ≠ 0 then [Ins.setheap_save (HExpr.allocOf second * 4)] else []) ++
        [Ins.heapPush, Ins.jumplabel (st.nextLabel + 1), Ins.setlabel st.nextLabel] ++
        HExpr.emitCode third ++ [Ins.heapPopStatic] ++
        (if HExpr.allocOf third ≠ 0 then [Ins.setheap_save (HExpr.allocOf third * 4)] else []) ++
        [Ins.setlabel (st.nextLabel + 1)] ++
        (if vident = Ident.REFARRAY ∧ HExpr.allocOf second ≠ 0 ∧ HExpr.allocOf third ≠ 0 then
          [Ins.markheap true 0]
        else []) :=
  ternary_code_shape first second third vident st

/-- Claim C4. On every control path, `TernaryExpr::DoEmit` performs exactly two
`pushheaplist` and two `pop_static_heaplist`/`popheaplist` operations and
`CallExpr::DoEmit` exactly one of each, and both restore the heap-list stack
depth — provided the sub-expressions' own code performs no heap-list
operations of its own. -/
theorem C4_heap_balance :
    (∀ (first second third : HExpr) (vident : Ident) (st : EmitSt),
        heapPushCount first.code = 0 → heapPopCount first.code = 0 →
        heapPushCount second.code = 0 → heapPopCount second.code = 0 →
        heapPushCount third.code = 0 → heapPopCount third.code = 0 →
        heapPushCount (TernaryExpr.DoEmit first second third vident st).code
            = heapPushCount st.code + 2 ∧
        heapPopCount (TernaryExpr.DoEmit first second third vident st).code
            = heapPopCount st.code + 2 ∧
        (TernaryExpr.DoEmit first second third vident st).heap.length = st.heap.length) ∧
    (∀ (retArraySize : Option Int) (argv : List ArgvEntry) (sym : String) (st : EmitSt),
        (∀ a ∈ argv, heapPushCount a.code = 0 ∧ heapPopCount a.code = 0) →
        heapPushCount (CallExpr.DoEmit retArraySize argv sym st).code
            = heapPushCount st.code + 1 ∧
        heapPopCount (CallExpr.DoEmit retArraySize argv sym st).code
            = heapPopCount st.code + 1 ∧
        (CallExpr.DoEmit retArraySize argv sym st).heap.length = st.heap.length) :=
  ⟨fun f s t v st hp1 hq1 hp2 hq2 hp3 hq3 => ternary_balance f s t v st hp1 hq1 hp2 hq2 hp3 hq3,
   fun r argv sym st h => call_balance r argv sym st h⟩

/-- Witness for C4: a ternary over opaque expression atoms and a
zero-argument call, both from the empty emitter state. -/
theorem C4_heap_balance_witness :
    (heapPushCount (TernaryExpr.DoEmit exprAtom exprAtom exprAtom Ident.EXPRESSION
          emptyEmitSt).code = heapPushCount emptyEmitSt.code + 2 ∧
      heapPopCount (TernaryExpr.DoEmit exprAtom exprAtom exprAtom Ident.EXPRESSION
          emptyEmitSt).code = heapPopCount emptyEmitSt.code + 2 ∧
      (TernaryExpr.DoEmit exprAtom exprAtom exprAtom Ident.EXPRESSION
          emptyEmitSt).heap.length = emptyEmitSt.heap.length) ∧
    (heapPushCount (CallExpr.DoEmit none [] "f" emptyEmitSt).code
          = heapPushCount emptyEmitSt.code + 1 ∧
      heapPopCount (CallExpr.DoEmit none [] "f" emptyEmitSt).code
          = heapPopCount emptyEmitSt.code + 1 ∧
      (CallExpr.DoEmit none [] "f" emptyEmitSt).heap.length = emptyEmitSt.heap.length) :=
  ⟨C4_heap_balance.1 exprAtom exprAtom exprAtom Ident.EXPRESSION emptyEmitSt
      rfl rfl rfl rfl rfl rfl,
   C4_heap_balance.2 none [] "f" emptyEmitSt (by simp)⟩

theorem structInitLoop_shape (fuel : Nat) :
    ∀ (pos : Nat) (acc : List (String × Expression)) (st : PState) (r : Expression),
      ((structInitLoop fuel pos acc).run st).1 = some r →
      ∃ pairs, r = Expression.StructInitializer pos pairs := by
  induction fuel with
  | zero =>
    intro pos acc st r hr
    rw [show ((structInitLoop 0 pos acc).run st).1 = none from rfl] at hr
    exact Option.noConfusion hr
  | succ n ih =>
    intro pos acc st r hr
    simp only [structInitLoop, exprFns, exprStep, StateT.run_bind, StateT.run_pure,
      Id.bind_eq, Id.pure_eq, Id.map_eq] at hr
    split at hr
    · simp at hr
      exact ⟨acc, hr.symm⟩
    · simp only [StateT.run_bind, StateT.run_pure, Id.bind_eq, Id.pure_eq, Id.map_eq] at hr
      split at hr
      · simp at hr
      · simp only [StateT.run_bind, StateT.run_pure, Id.bind_eq, Id.pure_eq, Id.map_eq] at hr
        split at hr
        · simp at hr
        · simp only [StateT.run_bind, StateT.run_pure, Id.bind_eq, Id.pure_eq,
            Id.map_eq] at hr
          split at hr
          · simp at hr
          · simp only [StateT.run_bind, StateT.run_pure, Id.bind_eq, Id.pure_eq,
              Id.map_eq] at hr
            exact ih pos _ _ r (by
              simpa [structInitLoop, exprFns, StateT.run_bind, Id.bind_eq] using hr)

theorem parseStructInitializer_shape (fuel pos : Nat) (st : PState) (r : Expression)
    (hr : ((parseStructInitializer fuel pos).run st).1 = some r) :
    ∃ pairs, r = Expression.StructInitializer pos pairs := by
  match fuel with
  | 0 =>
    rw [show ((parseStructInitializer 0 pos).run st).1 = none from rfl] at hr
    exact Option.noConfusion hr
  | n+1 =>
    exact structInitLoop_shape n pos [] st r hr

theorem parseCompoundLiteral_shape (fuel : Nat) (st : PState) (p : Nat) (tok : TokKind)
    (elems : List Expression)
    (hr : ((parseCompoundLiteral fuel).run st).1 =
      some (Expression.ArrayLiteral p tok elems)) : elems = [] := by
  match fuel with
  | 0 =>
    rw [show ((parseCompoundLiteral 0).run st).1 = none from rfl] at hr
    exact Option.noConfusion hr
  | n+1 =>
    simp only [parseCompoundLiteral, exprFns, exprStep, StateT.run_bind, StateT.run_pure,
      Id.bind_eq, Id.pure_eq, Id.map_eq] at hr
    split at hr
    · simp only [StateT.run_bind, StateT.run_pure, Id.bind_eq, Id.pure_eq, Id.map_eq] at hr
      split at hr
      · obtain ⟨pairs, hpairs⟩ := parseStructInitializer_shape n _ _ _ hr
        exact Expression.noConfusion hpairs
      · simp only [StateT.run_bind, StateT.run_pure, Id.bind_eq, Id.pure_eq,
          Id.map_eq] at hr
        split at hr
        · simp at hr
          exact hr.2.2
        · simp at hr
    · simp only [StateT.run_bind, StateT.run_pure, Id.bind_eq, Id.pure_eq, Id.map_eq] at hr
      split at hr
      · obtain ⟨pairs, hpairs⟩ := parseStructInitializer_shape n _ _ _ hr
        exact Expression.noConfusion hpairs
      · simp only [StateT.run_bind, StateT.run_pure, Id.bind_eq, Id.pure_eq,
          Id.map_eq] at hr
        split at hr
        · simp at hr
          exact hr.2.2
        · simp at hr

/-- Counterexample to claim C5: on a stream beginning with the scanner error
token, `Parser::parse` returns the source's `nullptr` (`some none`), not a
partial `ParseTree`. -/
theorem C5_counterexample :
    ((parse nullHandlers 5).run (pst0 c5toks)).1 = some none := rfl

/-- Claim C5, amended. The dispatch loop of `Parser::parse` (a) returns
`nullptr` when the scanner yields `TOK_ERROR`; (b) returns the accumulated
tree at `TOK_EOF`; and (c) on an unrecognized leading token (here a stray
`;`), reports `ExpectedGlobal` and stops immediately, returning the
accumulated tree rather than skipping the token and continuing. -/
theorem C5_parse_loop_behavior :
    (∀ (h : GlobalHandlers) (fuel : Nat) (acc : List Stmt) (st : PState) (t : Tok)
        (rest : List Tok), st.scan.future = t :: rest → t.kind = TokKind.TOK_ERROR →
        ((parseLoop h (fuel+1) acc).run st).1 = some none) ∧
    (∀ (h : GlobalHandlers) (fuel : Nat) (acc : List Stmt) (st : PState) (t : Tok)
        (rest : List Tok), st.scan.future = t :: rest → t.kind = TokKind.TOK_EOF →
        ((parseLoop h (fuel+1) acc).run st).1 = some (some acc)) ∧
    (∀ (h : GlobalHandlers) (fuel : Nat) (acc : List Stmt) (st : PState) (t : Tok)
        (rest : List Tok), st.scan.future = t :: rest →
        t.kind = TokKind.TOK_SEMICOLON →
        ((parseLoop h (fuel+1) acc).run st).1 = some (some acc) ∧
        ((parseLoop h (fuel+1) acc).run st).2.diags =
          st.diags ++ [⟨t.pos, Msg.ExpectedGlobal⟩]) := by
  refine ⟨?_, ?_, ?_⟩
  · intro h fuel acc st t rest hf hk
    simp [parseLoop, snext, Scanner.nextS, hf, hk, StateT.run_bind]
  · intro h fuel acc st t rest hf hk
    simp [parseLoop, snext, Scanner.nextS, hf, hk, StateT.run_bind]
  · intro h fuel acc st t rest hf hk
    constructor
    · simp [parseLoop, snext, sbegin, scurrent, reportErr, Scanner.currentTok,
        Scanner.nextS, hf, hk, StateT.run_bind]
    · simp [parseLoop, snext, sbegin, scurrent, reportErr, Scanner.currentTok,
        Scanner.nextS, hf, hk, StateT.run_bind]

/-- Witness for C5 at concrete one-token streams: an error token, an EOF
token, and a stray semicolon. -/
theorem C5_parse_loop_behavior_witness :
    ((pst0 c5toks).scan.future =
        mkTok TokKind.TOK_ERROR 1 1 :: [mkTok TokKind.TOK_EOF 2 2]) ∧
    ((parseLoop nullHandlers 1 []).run (pst0 c5toks)).1 = some none ∧
    ((parseLoop nullHandlers 1 []).run (pst0 [mkTok TokKind.TOK_EOF 1 1])).1 =
        some (some []) ∧
    ((parseLoop nullHandlers 1 []).run (pst0 [mkTok TokKind.TOK_SEMICOLON 1 7])).1 =
        some (some []) ∧
    ((parseLoop nullHandlers 1 []).run (pst0 [mkTok TokKind.TOK_SEMICOLON 1 7])).2.diags =
        (pst0 [mkTok TokKind.TOK_SEMICOLON 1 7]).diags ++ [⟨7, Msg.ExpectedGlobal⟩] :=
  ⟨rfl,
   C5_parse_loop_behavior.1 nullHandlers 0 [] (pst0 c5toks) (mkTok TokKind.TOK_ERROR 1 1)
     [mkTok TokKind.TOK_EOF 2 2] rfl rfl,
   C5_parse_loop_behavior.2.1 nullHandlers 0 [] (pst0 [mkTok TokKind.TOK_EOF 1 1])
     (mkTok TokKind.TOK_EOF 1 1) [] rfl rfl,
   (C5_parse_loop_behavior.2.2 nullHandlers 0 [] (pst0 [mkTok TokKind.TOK_SEMICOLON 1 7])
     (mkTok TokKind.TOK_SEMICOLON 1 7) [] rfl rfl).1,
   (C5_parse_loop_behavior.2.2 nullHandlers 0 [] (pst0 [mkTok TokKind.TOK_SEMICOLON 1 7])
     (mkTok TokKind.TOK_SEMICOLON 1 7) [] rfl rfl).2⟩

/-- Counterexample to claim C6: already the second chained relational
operator (`x < y < z`) triggers `NoChainedRelationalOps` and yields no
node — not only a third. -/
theorem C6_counterexample :
    ((relational 40).run (pst0 (c6TwoToks "x" "y" "z"))).1 = none ∧
    ((relational 40).run (pst0 (c6TwoToks "x" "y" "z"))).2.diags =
      [⟨4, Msg.NoChainedRelationalOps⟩] := ⟨rfl, rfl⟩

/-- Claim C6, amended. The relational production accepts exactly one
relational operator into a `BinaryExpression` (diagnostic-free), and a
second chained operator already triggers `NoChainedRelationalOps` at the
second operator's position, after which the production yields no node. -/
theorem C6_relational_behavior :
    (∀ (x y : String),
      ((relational 40).run (pst0 (c6OneToks x y))).1 =
        some (Expression.BinaryExpression 2 TokKind.TOK_LT
          (Expression.NameProxy 1 x) (Expression.NameProxy 3 y)) ∧
      ((relational 40).run (pst0 (c6OneToks x y))).2.diags = []) ∧
    (∀ (x y z : String),
      ((relational 40).run (pst0 (c6TwoToks x y z))).1 = none ∧
      ((relational 40).run (pst0 (c6TwoToks x y z))).2.diags =
        [⟨4, Msg.NoChainedRelationalOps⟩]) :=
  ⟨fun x y => ⟨rfl, rfl⟩, fun x y z => ⟨rfl, rfl⟩⟩

/-- Counterexample to claim C7: the switch statement of the claim produces
only `DefaultMustBeLastCase` (at the `default` keyword's position 40, not at
`case 3`), and no `SingleStatementPerCase` diagnostic at all. -/
theorem C7_counterexample :
    ((statement 60).run (pst0 c7toks)).2.diags = [⟨40, Msg.DefaultMustBeLastCase⟩] ∧
    Msg.DefaultMustBeLastCase ≠ Msg.SingleStatementPerCase := ⟨rfl, by decide⟩

/-- Claim C7, amended. Parsing the claim's switch statement fails (yields no
node) with exactly one diagnostic, `DefaultMustBeLastCase`, reported at the
`default` keyword (position 40): each `case` body is one statement, so
`SingleStatementPerCase` never fires, and the `case` following `default`
aborts the production rather than adding a second diagnostic. -/
theorem C7_switch_diagnostics :
    ((statement 60).run (pst0 c7toks)).1 = none ∧
    ((statement 60).run (pst0 c7toks)).2.diags = [⟨40, Msg.DefaultMustBeLastCase⟩] :=
  ⟨rfl, rfl⟩

/-- Counterexample to claim C8: `a ^ b & c` does not parse to
`a ^ (b & c)` — the parse stops after `a ^ b` and leaves `& c` unconsumed. -/
theorem C8_counterexample :
    ((expression 40).run (pst0 (c8Toks "a" "b" "c"))).1 =
      some (Expression.BinaryExpression 2 TokKind.TOK_BITXOR
        (Expression.NameProxy 1 "a") (Expression.NameProxy 3 "b")) ∧
    ((expression 40).run (pst0 (c8Toks "a" "b" "c"))).2.scan.future =
      [mkTok TokKind.TOK_BITAND 1 4, mkNameTok "c" 1 5, mkTok TokKind.TOK_EOF 2 6] ∧
    some (Expression.BinaryExpression 2 TokKind.TOK_BITXOR
        (Expression.NameProxy 1 "a") (Expression.NameProxy 3 "b")) ≠
      some (Expression.BinaryExpression 2 TokKind.TOK_BITXOR (Expression.NameProxy 1 "a")
        (Expression.BinaryExpression 4 TokKind.TOK_BITAND
          (Expression.NameProxy 3 "b") (Expression.NameProxy 5 "c"))) :=
  ⟨rfl, rfl, by simp⟩

/-- Claim C8, amended. Because `bitxor` descends into `shift` for its
right-hand operand, `a ^ b & c` parses as `(a ^ b)` and the trailing `& c`
is left unconsumed in the token stream — the input is neither fully consumed
nor grouped as `a ^ (b & c)`. -/
theorem C8_bitxor_grouping :
    ∀ (a b c : String),
      ((expression 40).run (pst0 (c8Toks a b c))).1 =
        some (Expression.BinaryExpression 2 TokKind.TOK_BITXOR
          (Expression.NameProxy 1 a) (Expression.NameProxy 3 b)) ∧
      ((expression 40).run (pst0 (c8Toks a b c))).2.scan.future =
        [mkTok TokKind.TOK_BITAND 1 4, mkNameTok c 1 5, mkTok TokKind.TOK_EOF 2 6] :=
  fun a b c => ⟨rfl, rfl⟩

set_option maxHeartbeats 2000000 in
/-- Claim C9. After `parse_decl` sees NAME `[` `]`: if the next token is a
NAME or `&`, it re-parses as new-style via `parse_new_decl`, with the saved
first NAME pushed back to the scanner as the type and the post-dims flag
cleared from the rank-1 specifier; otherwise (e.g. at `;`) it accepts
old-style with the saved NAME as declared name, rank-1 post dims and the
implicit `int` type.  Concretely, `vec[] pts` yields a declaration typed by
the name proxy `vec` and named `pts`. -/
theorem C9_parse_decl_backtrack :
    (∀ (n : Nat) (x y : String) (rtail : List Tok),
      ((parse_decl (n+3) Declaration.empty varFlags).run
          (pst0 (c9Head x ++ (mkNameTok y 1 4 :: rtail)))) =
        ((parse_new_decl (n+2) ⟨{ TypeSpec.empty with rank := 1 }, eofTok⟩ varFlags).run
          ⟨⟨c9PastOf x, mkNameTok x 1 1 :: mkNameTok y 1 4 :: rtail, true, true⟩,
            [], true, false⟩)) ∧
    (∀ (n : Nat) (x : String) (rtail : List Tok),
      ((parse_decl (n+3) Declaration.empty varFlags).run
          (pst0 (c9Head x ++ (mkTok TokKind.TOK_AMPERSAND 1 4 :: rtail)))) =
        ((parse_new_decl (n+2) ⟨{ TypeSpec.empty with rank := 1 }, eofTok⟩ varFlags).run
          ⟨⟨c9PastOf x, mkNameTok x 1 1 :: mkTok TokKind.TOK_AMPERSAND 1 4 :: rtail,
              true, true⟩, [], true, false⟩)) ∧
    (∀ (n : Nat) (x : String) (rtail : List Tok),
      ((parse_decl (n+3) Declaration.empty varFlags).run
          (pst0 (c9Head x ++ (mkTok TokKind.TOK_SEMICOLON 1 4 :: rtail)))) =
        ((true, ⟨c9OldSpec, mkNameTok x 1 1⟩),
          ⟨⟨c9PastOf x, mkTok TokKind.TOK_SEMICOLON 1 4 :: rtail, true, true⟩,
            [], true, false⟩)) ∧
    (((parse_decl 40 Declaration.empty varFlags).run
          (pst0 (c9Head "vec" ++ [mkNameTok "pts" 1 4, mkTok TokKind.TOK_EOF 2 5]))).1 =
        (true, ⟨c9NewSpec "vec", mkNameTok "pts" 1 4⟩)) :=
  ⟨fun n x y rtail => rfl, fun n x rtail => rfl, fun n x rtail => rfl, rfl⟩

/-- Claim C10. Whenever `parseCompoundLiteral` returns an `ArrayLiteral`
node, its expression list is empty (the element expressions are parsed but
never appended), for every fuel and every starting state; concretely,
`{ 1, 2 }` parses to an `ArrayLiteral` with an empty list. -/
theorem C10_array_literal_empty :
    (∀ (fuel : Nat) (st : PState) (p : Nat) (tok : TokKind) (elems : List Expression),
      ((parseCompoundLiteral fuel).run st).1 = some (Expression.ArrayLiteral p tok elems) →
      elems = []) ∧
    ((expression 40).run (pst0 c10toks)).1 =
      some (Expression.ArrayLiteral 1 TokKind.TOK_LBRACE []) :=
  ⟨fun fuel st p tok elems hr => parseCompoundLiteral_shape fuel st p tok elems hr, rfl⟩

/-- Witness for C10 inside `{ 1, 2 }`: `parseCompoundLiteral` concretely
returns an `ArrayLiteral` with the empty list, discharging the hypothesis. -/
theorem C10_array_literal_empty_witness :
    ((parseCompoundLiteral 40).run c10inner).1 =
      some (Expression.ArrayLiteral 1 TokKind.TOK_LBRACE []) ∧
    ([] : List Expression) = [] :=
  ⟨rfl, C10_array_literal_empty.1 40 c10inner 1 TokKind.TOK_LBRACE [] rfl⟩

end SP
